import Mathlib

/-!
Formal model of the `ana` pipeline state engine
(`lib/pipeline-state.js`, the `PipelineState` class).

The JavaScript class keeps one JSON document in memory and rewrites it to
disk after every mutation.  Here the document is a Lean structure, every
method of the class becomes a pure function from the old document (plus the
explicit inputs the JS code takes from the environment: the current
timestamp `now`, the file system) to the new document and result.
JavaScript objects used as string-keyed maps become association lists that
keep insertion order, which is exactly the iteration order of non-index
string keys of a JS object.
-/

namespace Ana

/-- JS object used as a string-keyed map: entries in insertion order. -/
abbrev JsMap (α : Type) := List (String × α)

/-- Property read `m[k]`: first (unique) entry with key `k`. -/
def jget {α : Type} : JsMap α → String → Option α
  | [], _ => none
  | (k0, v0) :: rest, k => if k0 = k then some v0 else jget rest k

/-- Property write `m[k] = v`: overwrite in place, or append a fresh key. -/
def jset {α : Type} : JsMap α → String → α → JsMap α
  | [], k, v => [(k, v)]
  | (k0, v0) :: rest, k, v =>
    if k0 = k then (k0, v) :: rest else (k0, v0) :: jset rest k v

/-- `Object.keys(m)` in iteration order. -/
def jkeys {α : Type} (m : JsMap α) : List String := m.map Prod.fst

/-- A real JS object can never hold the same key twice. -/
abbrev NodupKeys {α : Type} (m : JsMap α) : Prop := (jkeys m).Nodup

/-! ### The state document (§ `loadState` default structure) -/

/-- Success entry of `download_audio.downloaded_files`. -/
structure DownloadEntry where
  status : String
  broker_id : String
  filename : String
  filepath : String
  completed_at : String
deriving DecidableEq

/-- Failure entry of any `failed_*` map: `{ error, failed_at }`. -/
structure FailEntry where
  error : String
  failed_at : String
deriving DecidableEq

/-- Success entry of `transcribe.transcribed_files`. -/
structure TranscribeEntry where
  status : String
  filename : String
  transcript_path : String
  completed_at : String
deriving DecidableEq

/-- Success entry of `upload_audio.uploaded_files`. -/
structure UploadEntry where
  status : String
  bubble_url : String
  completed_at : String
deriving DecidableEq

/-- The `analysis_summary` sub-object stored by `markAnalyzed`. -/
structure AnalysisSummary where
  sentiment : String
  success_rating : String
  call_disposition : String
deriving DecidableEq

/-- Success entry of `analyze.analyzed_calls`. -/
structure AnalyzeEntry where
  status : String
  analysis_summary : AnalysisSummary
  completed_at : String
deriving DecidableEq

/-- One processed range in `get_call_ids.processed_date_ranges`. -/
structure DateRange where
  start_date : String
  end_date : String
  call_count : Nat
  processed_at : String
deriving DecidableEq

/-- One record of `archived_files[category]`. -/
structure ArchiveEntry where
  call_id : Option String
  original_filename : String
  archive_path : String
  archived_at : String
deriving DecidableEq

/-- Stage record `stages.get_call_ids`. -/
structure GetCallIdsStage where
  processed_date_ranges : List DateRange
  total_calls_extracted : Nat
  last_run : Option String
deriving DecidableEq

/-- Stage record `stages.download_audio`. -/
structure DownloadStage where
  downloaded_files : JsMap DownloadEntry
  failed_downloads : JsMap FailEntry
  total_downloaded : Nat
deriving DecidableEq

/-- Stage record `stages.transcribe`. -/
structure TranscribeStage where
  transcribed_files : JsMap TranscribeEntry
  failed_transcriptions : JsMap FailEntry
  total_transcribed : Nat
deriving DecidableEq

/-- Stage record `stages.upload_audio`. -/
structure UploadStage where
  uploaded_files : JsMap UploadEntry
  failed_uploads : JsMap FailEntry
  total_uploaded : Nat
deriving DecidableEq

/-- Stage record `stages.analyze`. -/
structure AnalyzeStage where
  analyzed_calls : JsMap AnalyzeEntry
  failed_analyses : JsMap FailEntry
  total_analyzed : Nat
deriving DecidableEq

/-- The `stages` object. -/
structure Stages where
  get_call_ids : GetCallIdsStage
  download_audio : DownloadStage
  transcribe : TranscribeStage
  upload_audio : UploadStage
  analyze : AnalyzeStage
deriving DecidableEq

/-- The `archived_files` object with its three fixed categories. -/
structure ArchivedFiles where
  call_ids : List ArchiveEntry
  audio : List ArchiveEntry
  transcripts : List ArchiveEntry
deriving DecidableEq

/-- `archived_files[category]`; an unknown category reads `undefined`. -/
def getCategory (af : ArchivedFiles) (category : String) : Option (List ArchiveEntry) :=
  if category = "call_ids" then some af.call_ids
  else if category = "audio" then some af.audio
  else if category = "transcripts" then some af.transcripts
  else none

/-- Write back `archived_files[category]` (caller checked it exists). -/
def setCategory (af : ArchivedFiles) (category : String) (l : List ArchiveEntry) : ArchivedFiles :=
  if category = "call_ids" then { af with call_ids := l }
  else if category = "audio" then { af with audio := l }
  else if category = "transcripts" then { af with transcripts := l }
  else af

/-- The whole persisted document. -/
structure StateDoc where
  version : String
  created : String
  last_updated : String
  stages : Stages
  archived_files : ArchivedFiles
deriving DecidableEq

/-- The default document built by `loadState` when the file is missing or
unparseable (`now` stands for `new Date().toISOString()`). -/
def defaultState (now : String) : StateDoc :=
  { version := "1.0.0"
    created := now
    last_updated := now
    stages :=
      { get_call_ids := { processed_date_ranges := [], total_calls_extracted := 0, last_run := none }
        download_audio := { downloaded_files := [], failed_downloads := [], total_downloaded := 0 }
        transcribe := { transcribed_files := [], failed_transcriptions := [], total_transcribed := 0 }
        upload_audio := { uploaded_files := [], failed_uploads := [], total_uploaded := 0 }
        analyze := { analyzed_calls := [], failed_analyses := [], total_analyzed := 0 } }
    archived_files := { call_ids := [], audio := [], transcripts := [] } }

/-- `saveState`: stamps `last_updated` and rewrites the file; only the
document update is visible in the model. -/
def saveState (s : StateDoc) (now : String) : StateDoc :=
  { s with last_updated := now }

/-! ### Deduplication checks (pure reads) -/

/-- `isDateRangeProcessed(startDate, endDate)`. -/
def isDateRangeProcessed (s : StateDoc) (startDate endDate : String) : Bool :=
  s.stages.get_call_ids.processed_date_ranges.any fun range =>
    range.start_date == startDate && range.end_date == endDate

/-- `isCallIdExtracted(callId)` (`hasOwnProperty` on the download map). -/
def isCallIdExtracted (s : StateDoc) (callId : String) : Bool :=
  (jget s.stages.download_audio.downloaded_files callId).isSome

/-- `isAudioDownloaded(callId)`. -/
def isAudioDownloaded (s : StateDoc) (callId : String) : Bool :=
  match jget s.stages.download_audio.downloaded_files callId with
  | some e => e.status == "completed"
  | none => false

/-- `isTranscribed(callId)`. -/
def isTranscribed (s : StateDoc) (callId : String) : Bool :=
  match jget s.stages.transcribe.transcribed_files callId with
  | some e => e.status == "completed"
  | none => false

/-- `isAudioUploaded(callId)`. -/
def isAudioUploaded (s : StateDoc) (callId : String) : Bool :=
  match jget s.stages.upload_audio.uploaded_files callId with
  | some e => e.status == "completed"
  | none => false

/-- `isAnalyzed(callId)`. -/
def isAnalyzed (s : StateDoc) (callId : String) : Bool :=
  match jget s.stages.analyze.analyzed_calls callId with
  | some e => e.status == "completed"
  | none => false

/-! ### State updates.  Each mutator edits the document and ends in
`saveState`; `now` stands for every `new Date().toISOString()` drawn
during the call. -/

/-- `markDateRangeProcessed(startDate, endDate, callCount)`. -/
def markDateRangeProcessed (s : StateDoc) (startDate endDate : String)
    (callCount : Nat) (now : String) : StateDoc :=
  let g := s.stages.get_call_ids
  let g :=
    { g with
      processed_date_ranges := g.processed_date_ranges ++
        [{ start_date := startDate, end_date := endDate,
           call_count := callCount, processed_at := now }]
      total_calls_extracted := g.total_calls_extracted + callCount
      last_run := some now }
  saveState { s with stages := { s.stages with get_call_ids := g } } now

/-- `markAudioDownloaded(callId, brokerId, filename, filepath)`. -/
def markAudioDownloaded (s : StateDoc) (callId brokerId filename filepath now : String) :
    StateDoc :=
  let d := s.stages.download_audio
  let d :=
    { d with
      downloaded_files := jset d.downloaded_files callId
        { status := "completed", broker_id := brokerId, filename := filename,
          filepath := filepath, completed_at := now }
      total_downloaded := d.total_downloaded + 1 }
  saveState { s with stages := { s.stages with download_audio := d } } now

/-- `markAudioDownloadFailed(callId, error)`. -/
def markAudioDownloadFailed (s : StateDoc) (callId error now : String) : StateDoc :=
  let d := s.stages.download_audio
  let d :=
    { d with
      failed_downloads := jset d.failed_downloads callId
        { error := error, failed_at := now } }
  saveState { s with stages := { s.stages with download_audio := d } } now

/-- `markTranscribed(callId, filename, transcriptPath)`. -/
def markTranscribed (s : StateDoc) (callId filename transcriptPath now : String) : StateDoc :=
  let t := s.stages.transcribe
  let t :=
    { t with
      transcribed_files := jset t.transcribed_files callId
        { status := "completed", filename := filename,
          transcript_path := transcriptPath, completed_at := now }
      total_transcribed := t.total_transcribed + 1 }
  saveState { s with stages := { s.stages with transcribe := t } } now

/-- `markTranscriptionFailed(callId, error)`. -/
def markTranscriptionFailed (s : StateDoc) (callId error now : String) : StateDoc :=
  let t := s.stages.transcribe
  let t :=
    { t with
      failed_transcriptions := jset t.failed_transcriptions callId
        { error := error, failed_at := now } }
  saveState { s with stages := { s.stages with transcribe := t } } now

/-- `markAudioUploaded(callId, bubbleUrl)`. -/
def markAudioUploaded (s : StateDoc) (callId bubbleUrl now : String) : StateDoc :=
  let u := s.stages.upload_audio
  let u :=
    { u with
      uploaded_files := jset u.uploaded_files callId
        { status := "completed", bubble_url := bubbleUrl, completed_at := now }
      total_uploaded := u.total_uploaded + 1 }
  saveState { s with stages := { s.stages with upload_audio := u } } now

/-- `markAudioUploadFailed(callId, error)`. -/
def markAudioUploadFailed (s : StateDoc) (callId error now : String) : StateDoc :=
  let u := s.stages.upload_audio
  let u :=
    { u with
      failed_uploads := jset u.failed_uploads callId
        { error := error, failed_at := now } }
  saveState { s with stages := { s.stages with upload_audio := u } } now

/-- The `analysisData` argument of `markAnalyzed`, restricted to the three
fields the state engine copies out of it. -/
structure AnalysisData where
  sentiment : String
  success_rating : String
  call_disposition : String
deriving DecidableEq

/-- `markAnalyzed(callId, analysisData)`. -/
def markAnalyzed (s : StateDoc) (callId : String) (analysisData : AnalysisData)
    (now : String) : StateDoc :=
  let a := s.stages.analyze
  let a :=
    { a with
      analyzed_calls := jset a.analyzed_calls callId
        { status := "completed"
          analysis_summary :=
            { sentiment := analysisData.sentiment
              success_rating := analysisData.success_rating
              call_disposition := analysisData.call_disposition }
          completed_at := now }
      total_analyzed := a.total_analyzed + 1 }
  saveState { s with stages := { s.stages with analyze := a } } now

/-- `markAnalysisFailed(callId, error)`. -/
def markAnalysisFailed (s : StateDoc) (callId error now : String) : StateDoc :=
  let a := s.stages.analyze
  let a :=
    { a with
      failed_analyses := jset a.failed_analyses callId
        { error := error, failed_at := now } }
  saveState { s with stages := { s.stages with analyze := a } } now

/-! ### Archiving.  The file system is modelled as the set of existing file
paths (directories are created on demand and cannot fail in the model).
`path.join` concatenates with a separator and `path.basename` takes the
last separated component, as Node does on the plain relative paths this
program builds. -/

/-- `path.join(a, b)`. -/
def pathJoin (a b : String) : String := a ++ "/" ++ b

/-- Split a character list on a separator character (`String.split` of JS
restricted to the one-character separators this program uses). -/
def splitChar (sep : Char) : List Char → List (List Char)
  | [] => [[]]
  | c :: cs =>
    match splitChar sep cs with
    | [] => [[c]]
    | g :: gs => if c = sep then [] :: g :: gs else (c :: g) :: gs

/-- `path.basename(p)`: the last `/`-separated component. -/
def basename (p : String) : String := String.mk ((splitChar '/' p.data).getLastD [])

/-- `new Date().toISOString().split('T')[0]`. -/
def dateOf (now : String) : String := String.mk ((splitChar 'T' now.data).headD now.data)

/-- `fs.renameSync(src, dst)`: `none` models the thrown `ENOENT` when the
source path does not exist; a successful rename removes the source path and
makes the destination path exist (renaming a path onto itself succeeds and
leaves the file in place, as POSIX `rename` does). -/
def renameSync (files : List String) (src dst : String) : Option (List String) :=
  if src ∈ files then some ((files.erase src).insert dst) else none

/-- `archiveFile(sourceFile, category, callId)`: returns the value the JS
method returns (`some destinationFile` on success, `none` for the caught
failure), the file system afterwards, and the document afterwards. -/
def archiveFile (files : List String) (s : StateDoc) (archiveDir sourceFile category : String)
    (callId : Option String) (now : String) : Option String × List String × StateDoc :=
  let filename := basename sourceFile
  let timestamp := dateOf now
  let archivePath := pathJoin (pathJoin archiveDir category) timestamp
  let destinationFile := pathJoin archivePath filename
  match renameSync files sourceFile destinationFile with
  | none => (none, files, s)
  | some files2 =>
    match getCategory s.archived_files category with
    | none => (none, files2, s)
    | some entries =>
      let s2 :=
        { s with
          archived_files := setCategory s.archived_files category
            (entries ++
              [{ call_id := callId, original_filename := filename,
                 archive_path := destinationFile, archived_at := now }]) }
      (some destinationFile, files2, saveState s2 now)

/-! ### Utilities -/

/-- Model of `Number.prototype.toFixed(1)` on the exact nonnegative
rational `num / den`: round to the nearest tenth, half rounded up, and
print one digit after the point.  The JS engine computes on binary doubles;
the two agree wherever the double computation is exact, which holds at
every input this development evaluates. -/
def toFixed1 (num den : Nat) : String :=
  let n := (20 * num + den) / (2 * den)
  toString (n / 10) ++ "." ++ toString (n % 10)

/-- The object returned by `getProcessingStats()`. -/
structure Stats where
  total_calls_extracted : Nat
  audio_downloaded : Nat
  transcribed : Nat
  uploaded_to_bubble : Nat
  analyzed : Nat
  archived_files : Nat
  completion_rate : String
deriving DecidableEq

/-- `getProcessingStats()`. -/
def getProcessingStats (s : StateDoc) : Stats :=
  let extracted := s.stages.get_call_ids.total_calls_extracted
  let analyzed := s.stages.analyze.total_analyzed
  { total_calls_extracted := extracted
    audio_downloaded := s.stages.download_audio.total_downloaded
    transcribed := s.stages.transcribe.total_transcribed
    uploaded_to_bubble := s.stages.upload_audio.total_uploaded
    analyzed := analyzed
    archived_files := s.archived_files.call_ids.length +
      s.archived_files.audio.length + s.archived_files.transcripts.length
    completion_rate :=
      if 0 < extracted then
        toFixed1 (analyzed * 100) extracted ++ "%"
      else "0%" }

/-- The object returned by `getFailedItems()`. -/
structure FailedItems where
  failed_downloads : List String
  failed_transcriptions : List String
  failed_uploads : List String
  failed_analyses : List String
deriving DecidableEq

/-- `getFailedItems()`. -/
def getFailedItems (s : StateDoc) : FailedItems :=
  { failed_downloads := jkeys s.stages.download_audio.failed_downloads
    failed_transcriptions := jkeys s.stages.transcribe.failed_transcriptions
    failed_uploads := jkeys s.stages.upload_audio.failed_uploads
    failed_analyses := jkeys s.stages.analyze.failed_analyses }

/-- The baseline of `getCallsForProcessing`: every key of
`download_audio.downloaded_files` whose entry has `status === 'completed'`,
collected in key iteration order. -/
def baselineCalls (s : StateDoc) : List String :=
  jkeys (s.stages.download_audio.downloaded_files.filter
    fun p => p.2.status == "completed")

/-- `getCallsForProcessing(stage)`. -/
def getCallsForProcessing (s : StateDoc) (stage : String) : List String :=
  let allCalls := baselineCalls s
  if stage = "transcribe" then
    allCalls.filter fun callId => !isTranscribed s callId
  else if stage = "upload_audio" then
    allCalls.filter fun callId => !isAudioUploaded s callId
  else if stage = "analyze" then
    allCalls.filter fun callId =>
      isTranscribed s callId && isAudioUploaded s callId && !isAnalyzed s callId
  else allCalls

/-! ### JSON values.

`loadState` keeps whatever `JSON.parse` returned; `saveState` writes
`JSON.stringify(this.state, null, 2)`.  JSON trees are modelled with
integer numbers: every number the state engine ever writes is an integral
count.  JS strings are modelled as Lean strings of Unicode scalar values,
which covers every well-formed string. -/

inductive Json where
  | null : Json
  | bool : Bool → Json
  | num : Int → Json
  | str : String → Json
  | arr : List Json → Json
  | obj : List (String × Json) → Json

/-! ### A model of `JSON.parse`.

Recursive descent over the character list, made structurally recursive on
an explicit fuel so that it evaluates inside the kernel.  The grammar is
the JSON grammar (insignificant whitespace, `null` / booleans / numbers /
strings / arrays / objects, no trailing commas, no leading zeros, string
escapes including `\uXXXX`).  Two value-level approximations, both beyond
anything the state file can contain: a fraction or exponent part is
consumed grammatically but the numeric value is kept to its integer part,
and a `\uXXXX` escape denoting a lone UTF-16 surrogate maps to the
replacement `Char.ofNat` produces. -/

/-- JSON insignificant whitespace. -/
def isWsChar (c : Char) : Bool :=
  c = ' ' || c = '\t' || c = '\n' || c = '\r'

/-- Drop leading insignificant whitespace. -/
def skipWs : List Char → List Char
  | [] => []
  | c :: cs => if isWsChar c then skipWs cs else c :: cs

/-- ASCII decimal digit. -/
def isDigitChar (c : Char) : Bool := 48 ≤ c.toNat && c.toNat ≤ 57

/-- Value of a hexadecimal digit. -/
def hexVal (c : Char) : Option Nat :=
  if 48 ≤ c.toNat && c.toNat ≤ 57 then some (c.toNat - 48)
  else if 97 ≤ c.toNat && c.toNat ≤ 102 then some (c.toNat - 87)
  else if 65 ≤ c.toNat && c.toNat ≤ 70 then some (c.toNat - 55)
  else none

/-- Value of a single-character string escape. -/
def unescapeChar (c : Char) : Option Char :=
  if c = '"' then some '"'
  else if c = '\\' then some '\\'
  else if c = '/' then some '/'
  else if c = 'b' then some '\x08'
  else if c = 'f' then some '\x0c'
  else if c = 'n' then some '\n'
  else if c = 'r' then some '\x0d'
  else if c = 't' then some '\t'
  else none

/-- Body of a string literal, after the opening quote: the decoded
characters and the input after the closing quote.  Raw control characters
are rejected, as `JSON.parse` does. -/
def parseStrBody : List Char → Option (List Char × List Char)
  | [] => none
  | c :: cs =>
    if c = '"' then some ([], cs)
    else if c = '\\' then
      match cs with
      | [] => none
      | e :: cs2 =>
        if e = 'u' then
          match cs2 with
          | h1 :: h2 :: h3 :: h4 :: cs3 =>
            match hexVal h1, hexVal h2, hexVal h3, hexVal h4 with
            | some a, some b, some c3, some d =>
              (parseStrBody cs3).bind fun p =>
                some (Char.ofNat (((a * 16 + b) * 16 + c3) * 16 + d) :: p.1, p.2)
            | _, _, _, _ => none
          | _ => none
        else
          (unescapeChar e).bind fun ec =>
            (parseStrBody cs2).bind fun p => some (ec :: p.1, p.2)
    else if c.toNat < 32 then none
    else (parseStrBody cs).bind fun p => some (c :: p.1, p.2)

/-- Longest leading run of decimal digits. -/
def takeDigits : List Char → List Char × List Char
  | [] => ([], [])
  | c :: cs =>
    if isDigitChar c then
      let p := takeDigits cs
      (c :: p.1, p.2)
    else ([], c :: cs)

/-- Numeric value of a digit run, most significant first. -/
def digitsVal (acc : Nat) (l : List Char) : Nat :=
  l.foldl (fun a c => a * 10 + (c.toNat - 48)) acc

/-- Optional fraction part: consumed grammatically, value dropped. -/
def consumeFrac : List Char → Option (List Char)
  | [] => some []
  | c :: cs =>
    if c = '.' then
      match takeDigits cs with
      | ([], _) => none
      | (_ :: _, r) => some r
    else some (c :: cs)

/-- Optional exponent part: consumed grammatically, value dropped. -/
def consumeExp : List Char → Option (List Char)
  | [] => some []
  | c :: cs =>
    if c = 'e' || c = 'E' then
      let cs1 := match cs with
        | s :: cs2 => if s = '+' || s = '-' then cs2 else s :: cs2
        | [] => []
      match takeDigits cs1 with
      | ([], _) => none
      | (_ :: _, r) => some r
    else some (c :: cs)

/-- Integer part of a number, enforcing the no-leading-zero rule. -/
def parseIntPart : List Char → Option (Nat × List Char)
  | [] => none
  | c :: cs =>
    if c = '0' then
      match cs with
      | c2 :: _ => if isDigitChar c2 then none else some (0, cs)
      | [] => some (0, [])
    else
      match takeDigits (c :: cs) with
      | ([], _) => none
      | (ds, r) => some (digitsVal 0 ds, r)

/-- A JSON number token (the caller has already skipped whitespace). -/
def parseNumAfterSign (neg : Bool) (cs : List Char) : Option (Int × List Char) :=
  (parseIntPart cs).bind fun p =>
    (consumeFrac p.2).bind fun r1 =>
      (consumeExp r1).bind fun r2 =>
        some (if neg then -(p.1 : Int) else (p.1 : Int), r2)

/-- A JSON number token, with its optional leading minus sign. -/
def parseNum : List Char → Option (Int × List Char)
  | [] => none
  | c :: cs =>
    if c = '-' then parseNumAfterSign true cs
    else parseNumAfterSign false (c :: cs)

/-- `"key" :` of an object member, up to just after the colon. -/
def parseKeyColon (cs : List Char) : Option (String × List Char) :=
  match skipWs cs with
  | '"' :: cs1 =>
    (parseStrBody cs1).bind fun p =>
      match skipWs p.2 with
      | ':' :: r2 => some (String.mk p.1, r2)
      | _ => none
  | _ => none

/-- What the descent is currently parsing: a value, the rest of an array
after an element, or the rest of an object after a member. -/
inductive PK where
  | val : PK
  | arrTail : PK
  | objTail : PK

/-- Result of one descent step. -/
inductive PRes where
  | v : Json → PRes
  | elems : List Json → PRes
  | members : List (String × Json) → PRes

/-- The recursive descent, fuelled for structural termination. -/
def parseF : PK → Nat → List Char → Option (PRes × List Char)
  | _, 0, _ => none
  | .val, fuel + 1, cs =>
    match skipWs cs with
    | [] => none
    | c :: cs1 =>
      if c = '[' then
        if (skipWs cs1).head? = some ']' then some (.v (.arr []), (skipWs cs1).tail)
        else
          match parseF .val fuel cs1 with
          | some (.v x, r1) =>
            match parseF .arrTail fuel r1 with
            | some (.elems xs, r2) => some (.v (.arr (x :: xs)), r2)
            | _ => none
          | _ => none
      else if c = '\x7b' then
        if (skipWs cs1).head? = some '\x7d' then some (.v (.obj []), (skipWs cs1).tail)
        else
          match parseKeyColon cs1 with
          | some (k, r1) =>
            match parseF .val fuel r1 with
            | some (.v v, r2) =>
              match parseF .objTail fuel r2 with
              | some (.members ms, r3) => some (.v (.obj ((k, v) :: ms)), r3)
              | _ => none
            | _ => none
          | none => none
      else if c = '"' then
        (parseStrBody cs1).bind fun p => some (.v (.str (String.mk p.1)), p.2)
      else if c = 't' then
        match cs1 with
        | 'r' :: 'u' :: 'e' :: r => some (.v (.bool true), r)
        | _ => none
      else if c = 'f' then
        match cs1 with
        | 'a' :: 'l' :: 's' :: 'e' :: r => some (.v (.bool false), r)
        | _ => none
      else if c = 'n' then
        match cs1 with
        | 'u' :: 'l' :: 'l' :: r => some (.v .null, r)
        | _ => none
      else
        (parseNum (c :: cs1)).bind fun p => some (.v (.num p.1), p.2)
  | .arrTail, fuel + 1, cs =>
    match skipWs cs with
    | [] => none
    | c :: r =>
      if c = ']' then some (.elems [], r)
      else if c = ',' then
        match parseF .val fuel r with
        | some (.v y, r2) =>
          match parseF .arrTail fuel r2 with
          | some (.elems ys, r3) => some (.elems (y :: ys), r3)
          | _ => none
        | _ => none
      else none
  | .objTail, fuel + 1, cs =>
    match skipWs cs with
    | [] => none
    | c :: r =>
      if c = '\x7d' then some (.members [], r)
      else if c = ',' then
        match parseKeyColon r with
        | some (k, r2) =>
          match parseF .val fuel r2 with
          | some (.v v, r3) =>
            match parseF .objTail fuel r3 with
            | some (.members ms, r4) => some (.members ((k, v) :: ms), r4)
            | _ => none
          | _ => none
        | none => none
      else none

/-- `JSON.parse`: one value, and nothing but whitespace after it.  The
fuel is generous: a run of the descent makes far fewer nested calls than
four per input character. -/
def jsonParse (txt : String) : Option Json :=
  match parseF .val (4 * txt.data.length + 16) txt.data with
  | some (.v j, rest) => if skipWs rest = [] then some j else none
  | _ => none

/-! ### A model of `JSON.stringify(value, null, 2)`.

Two-space indentation, `",\n"` between members, `": "` after keys, exactly
as V8 prints it.  Control characters, quotes and backslashes in strings
are escaped the way `JSON.stringify` escapes them. -/

/-- Decimal digits of a natural number. -/
def renderNat (n : Nat) : List Char :=
  if h : n < 10 then [Char.ofNat (48 + n)]
  else renderNat (n / 10) ++ [Char.ofNat (48 + n % 10)]
decreasing_by exact Nat.div_lt_self (by omega) (by omega)

/-- Decimal notation of an integer. -/
def renderInt : Int → List Char
  | .ofNat n => renderNat n
  | .negSucc m => '-' :: renderNat (m + 1)

/-- Lower-case hexadecimal digit. -/
def hexDigit (n : Nat) : Char :=
  if n < 10 then Char.ofNat (48 + n) else Char.ofNat (87 + n)

/-- How `JSON.stringify` prints one string character. -/
def escapeChar (c : Char) : List Char :=
  if c = '"' then ['\\', '"']
  else if c = '\\' then ['\\', '\\']
  else if c = '\x08' then ['\\', 'b']
  else if c = '\t' then ['\\', 't']
  else if c = '\n' then ['\\', 'n']
  else if c = '\x0c' then ['\\', 'f']
  else if c = '\x0d' then ['\\', 'r']
  else if c.toNat < 32 then
    ['\\', 'u', '0', '0', hexDigit (c.toNat / 16), hexDigit (c.toNat % 16)]
  else [c]

/-- Escape a whole character list. -/
def escList : List Char → List Char
  | [] => []
  | c :: cs => escapeChar c ++ escList cs

/-- A quoted string literal. -/
def renderStr (s : String) : List Char :=
  '"' :: (escList s.data ++ ['"'])

/-- Two spaces: one indentation step. -/
def sp2 : List Char := [' ', ' ']

mutual

/-- Pretty-print a value; `ind` is the indentation of the closing bracket. -/
def render (ind : List Char) : Json → List Char
  | .null => "null".data
  | .bool b => if b then "true".data else "false".data
  | .num i => renderInt i
  | .str s => renderStr s
  | .arr [] => "[]".data
  | .arr (x :: xs) =>
    '[' :: '\n' ::
      (sp2 ++ ind ++ render (sp2 ++ ind) x ++ renderArrRest (sp2 ++ ind) xs ++
        '\n' :: (ind ++ [']']))
  | .obj [] => "\x7b\x7d".data
  | .obj (m :: ms) =>
    '\x7b' :: '\n' ::
      (sp2 ++ ind ++ renderMember (sp2 ++ ind) m ++ renderObjRest (sp2 ++ ind) ms ++
        '\n' :: (ind ++ ['\x7d']))

/-- `"key": value`. -/
def renderMember (ind1 : List Char) : String × Json → List Char
  | (k, v) => renderStr k ++ ':' :: ' ' :: render ind1 v

/-- `,\n<ind1><element>` for each further array element. -/
def renderArrRest (ind1 : List Char) : List Json → List Char
  | [] => []
  | y :: ys => ',' :: '\n' :: (ind1 ++ render ind1 y ++ renderArrRest ind1 ys)

/-- `,\n<ind1><member>` for each further object member. -/
def renderObjRest (ind1 : List Char) : List (String × Json) → List Char
  | [] => []
  | m :: ms => ',' :: '\n' :: (ind1 ++ renderMember ind1 m ++ renderObjRest ind1 ms)

end

/-- `JSON.stringify(v, null, 2)`. -/
def jsonStringify (j : Json) : String := String.mk (render [] j)

/-! ### The state document as a JSON tree, and reading it back.

`encodeStateDoc` is the tree `this.state` denotes in memory, laid out with
the keys of `loadState`'s default document; `decodeStateDoc` reads every
field back out of a parsed tree by key, the way the class's accessors do,
and fails on any shape the accessors could not handle. -/

def encodeJsMap {α : Type} (enc : α → Json) (m : JsMap α) : Json :=
  .obj (m.map fun p => (p.1, enc p.2))

def encodeFailEntry (e : FailEntry) : Json :=
  .obj [("error", .str e.error), ("failed_at", .str e.failed_at)]

def encodeDownloadEntry (e : DownloadEntry) : Json :=
  .obj [("status", .str e.status), ("broker_id", .str e.broker_id),
        ("filename", .str e.filename), ("filepath", .str e.filepath),
        ("completed_at", .str e.completed_at)]

def encodeTranscribeEntry (e : TranscribeEntry) : Json :=
  .obj [("status", .str e.status), ("filename", .str e.filename),
        ("transcript_path", .str e.transcript_path),
        ("completed_at", .str e.completed_at)]

def encodeUploadEntry (e : UploadEntry) : Json :=
  .obj [("status", .str e.status), ("bubble_url", .str e.bubble_url),
        ("completed_at", .str e.completed_at)]

def encodeAnalyzeEntry (e : AnalyzeEntry) : Json :=
  .obj [("status", .str e.status),
        ("analysis_summary", .obj
          [("sentiment", .str e.analysis_summary.sentiment),
           ("success_rating", .str e.analysis_summary.success_rating),
           ("call_disposition", .str e.analysis_summary.call_disposition)]),
        ("completed_at", .str e.completed_at)]

def encodeDateRange (r : DateRange) : Json :=
  .obj [("start_date", .str r.start_date), ("end_date", .str r.end_date),
        ("call_count", .num r.call_count), ("processed_at", .str r.processed_at)]

def encodeArchiveEntry (e : ArchiveEntry) : Json :=
  .obj [("call_id", match e.call_id with | some c => .str c | none => .null),
        ("original_filename", .str e.original_filename),
        ("archive_path", .str e.archive_path),
        ("archived_at", .str e.archived_at)]

def encodeGetCallIds (g : GetCallIdsStage) : Json :=
  .obj
    [("processed_date_ranges", .arr (g.processed_date_ranges.map encodeDateRange)),
     ("total_calls_extracted", .num g.total_calls_extracted),
     ("last_run", match g.last_run with | some t => .str t | none => .null)]

def encodeDownloadStage (d : DownloadStage) : Json :=
  .obj
    [("downloaded_files", encodeJsMap encodeDownloadEntry d.downloaded_files),
     ("failed_downloads", encodeJsMap encodeFailEntry d.failed_downloads),
     ("total_downloaded", .num d.total_downloaded)]

def encodeTranscribeStage (t : TranscribeStage) : Json :=
  .obj
    [("transcribed_files", encodeJsMap encodeTranscribeEntry t.transcribed_files),
     ("failed_transcriptions", encodeJsMap encodeFailEntry t.failed_transcriptions),
     ("total_transcribed", .num t.total_transcribed)]

def encodeUploadStage (u : UploadStage) : Json :=
  .obj
    [("uploaded_files", encodeJsMap encodeUploadEntry u.uploaded_files),
     ("failed_uploads", encodeJsMap encodeFailEntry u.failed_uploads),
     ("total_uploaded", .num u.total_uploaded)]

def encodeAnalyzeStage (a : AnalyzeStage) : Json :=
  .obj
    [("analyzed_calls", encodeJsMap encodeAnalyzeEntry a.analyzed_calls),
     ("failed_analyses", encodeJsMap encodeFailEntry a.failed_analyses),
     ("total_analyzed", .num a.total_analyzed)]

def encodeStagesObj (st : Stages) : Json :=
  .obj
    [("get_call_ids", encodeGetCallIds st.get_call_ids),
     ("download_audio", encodeDownloadStage st.download_audio),
     ("transcribe", encodeTranscribeStage st.transcribe),
     ("upload_audio", encodeUploadStage st.upload_audio),
     ("analyze", encodeAnalyzeStage st.analyze)]

def encodeArchivedFiles (af : ArchivedFiles) : Json :=
  .obj
    [("call_ids", .arr (af.call_ids.map encodeArchiveEntry)),
     ("audio", .arr (af.audio.map encodeArchiveEntry)),
     ("transcripts", .arr (af.transcripts.map encodeArchiveEntry))]

def encodeStateDoc (s : StateDoc) : Json :=
  .obj
    [("version", .str s.version),
     ("created", .str s.created),
     ("last_updated", .str s.last_updated),
     ("stages", encodeStagesObj s.stages),
     ("archived_files", encodeArchivedFiles s.archived_files)]

/-- Property access on a parsed tree. -/
def Json.getField : Json → String → Option Json
  | .obj ms, k => jget ms k
  | _, _ => none

def asStr : Json → Option String
  | .str s => some s
  | _ => none

def asNat : Json → Option Nat
  | .num (.ofNat n) => some n
  | _ => none

def asOptStr : Json → Option (Option String)
  | .null => some none
  | .str s => some (some s)
  | _ => none

/-- Decode every member of an object in order, failing on the first bad one. -/
def decodePairs {α : Type} (dec : Json → Option α) : List (String × Json) → Option (JsMap α)
  | [] => some []
  | (k, v) :: t =>
    (dec v).bind fun a => (decodePairs dec t).bind fun r => some ((k, a) :: r)

/-- Decode every element of an array in order, failing on the first bad one. -/
def decodeElems {α : Type} (dec : Json → Option α) : List Json → Option (List α)
  | [] => some []
  | j :: t => (dec j).bind fun a => (decodeElems dec t).bind fun r => some (a :: r)

def decodeJsMap {α : Type} (dec : Json → Option α) : Json → Option (JsMap α)
  | .obj ms => decodePairs dec ms
  | _ => none

def decodeList {α : Type} (dec : Json → Option α) : Json → Option (List α)
  | .arr l => decodeElems dec l
  | _ => none

def decodeFailEntry (j : Json) : Option FailEntry := do
  let error ← (j.getField "error").bind asStr
  let failed_at ← (j.getField "failed_at").bind asStr
  pure { error := error, failed_at := failed_at }

def decodeDownloadEntry (j : Json) : Option DownloadEntry := do
  let status ← (j.getField "status").bind asStr
  let broker_id ← (j.getField "broker_id").bind asStr
  let filename ← (j.getField "filename").bind asStr
  let filepath ← (j.getField "filepath").bind asStr
  let completed_at ← (j.getField "completed_at").bind asStr
  pure { status := status, broker_id := broker_id, filename := filename,
         filepath := filepath, completed_at := completed_at }

def decodeTranscribeEntry (j : Json) : Option TranscribeEntry := do
  let status ← (j.getField "status").bind asStr
  let filename ← (j.getField "filename").bind asStr
  let transcript_path ← (j.getField "transcript_path").bind asStr
  let completed_at ← (j.getField "completed_at").bind asStr
  pure { status := status, filename := filename,
         transcript_path := transcript_path, completed_at := completed_at }

def decodeUploadEntry (j : Json) : Option UploadEntry := do
  let status ← (j.getField "status").bind asStr
  let bubble_url ← (j.getField "bubble_url").bind asStr
  let completed_at ← (j.getField "completed_at").bind asStr
  pure { status := status, bubble_url := bubble_url, completed_at := completed_at }

def decodeAnalyzeEntry (j : Json) : Option AnalyzeEntry := do
  let status ← (j.getField "status").bind asStr
  let summary ← j.getField "analysis_summary"
  let sentiment ← (summary.getField "sentiment").bind asStr
  let success_rating ← (summary.getField "success_rating").bind asStr
  let call_disposition ← (summary.getField "call_disposition").bind asStr
  let completed_at ← (j.getField "completed_at").bind asStr
  pure { status := status
         analysis_summary :=
           { sentiment := sentiment, success_rating := success_rating,
             call_disposition := call_disposition }
         completed_at := completed_at }

def decodeDateRange (j : Json) : Option DateRange := do
  let start_date ← (j.getField "start_date").bind asStr
  let end_date ← (j.getField "end_date").bind asStr
  let call_count ← (j.getField "call_count").bind asNat
  let processed_at ← (j.getField "processed_at").bind asStr
  pure { start_date := start_date, end_date := end_date,
         call_count := call_count, processed_at := processed_at }

def decodeArchiveEntry (j : Json) : Option ArchiveEntry := do
  let call_id ← (j.getField "call_id").bind asOptStr
  let original_filename ← (j.getField "original_filename").bind asStr
  let archive_path ← (j.getField "archive_path").bind asStr
  let archived_at ← (j.getField "archived_at").bind asStr
  pure { call_id := call_id, original_filename := original_filename,
         archive_path := archive_path, archived_at := archived_at }

def decodeGetCallIds (g : Json) : Option GetCallIdsStage := do
  let processed_date_ranges ← (g.getField "processed_date_ranges").bind
    (decodeList decodeDateRange)
  let total_calls_extracted ← (g.getField "total_calls_extracted").bind asNat
  let last_run ← (g.getField "last_run").bind asOptStr
  pure { processed_date_ranges := processed_date_ranges
         total_calls_extracted := total_calls_extracted
         last_run := last_run }

def decodeDownloadStage (d : Json) : Option DownloadStage := do
  let downloaded_files ← (d.getField "downloaded_files").bind
    (decodeJsMap decodeDownloadEntry)
  let failed_downloads ← (d.getField "failed_downloads").bind
    (decodeJsMap decodeFailEntry)
  let total_downloaded ← (d.getField "total_downloaded").bind asNat
  pure { downloaded_files := downloaded_files
         failed_downloads := failed_downloads
         total_downloaded := total_downloaded }

def decodeTranscribeStage (t : Json) : Option TranscribeStage := do
  let transcribed_files ← (t.getField "transcribed_files").bind
    (decodeJsMap decodeTranscribeEntry)
  let failed_transcriptions ← (t.getField "failed_transcriptions").bind
    (decodeJsMap decodeFailEntry)
  let total_transcribed ← (t.getField "total_transcribed").bind asNat
  pure { transcribed_files := transcribed_files
         failed_transcriptions := failed_transcriptions
         total_transcribed := total_transcribed }

def decodeUploadStage (u : Json) : Option UploadStage := do
  let uploaded_files ← (u.getField "uploaded_files").bind
    (decodeJsMap decodeUploadEntry)
  let failed_uploads ← (u.getField "failed_uploads").bind
    (decodeJsMap decodeFailEntry)
  let total_uploaded ← (u.getField "total_uploaded").bind asNat
  pure { uploaded_files := uploaded_files
         failed_uploads := failed_uploads
         total_uploaded := total_uploaded }

def decodeAnalyzeStage (a : Json) : Option AnalyzeStage := do
  let analyzed_calls ← (a.getField "analyzed_calls").bind
    (decodeJsMap decodeAnalyzeEntry)
  let failed_analyses ← (a.getField "failed_analyses").bind
    (decodeJsMap decodeFailEntry)
  let total_analyzed ← (a.getField "total_analyzed").bind asNat
  pure { analyzed_calls := analyzed_calls
         failed_analyses := failed_analyses
         total_analyzed := total_analyzed }

def decodeStagesObj (stages : Json) : Option Stages := do
  let g ← (stages.getField "get_call_ids").bind decodeGetCallIds
  let d ← (stages.getField "download_audio").bind decodeDownloadStage
  let t ← (stages.getField "transcribe").bind decodeTranscribeStage
  let u ← (stages.getField "upload_audio").bind decodeUploadStage
  let a ← (stages.getField "analyze").bind decodeAnalyzeStage
  pure { get_call_ids := g, download_audio := d, transcribe := t,
         upload_audio := u, analyze := a }

def decodeArchivedFiles (af : Json) : Option ArchivedFiles := do
  let call_ids ← (af.getField "call_ids").bind (decodeList decodeArchiveEntry)
  let audio ← (af.getField "audio").bind (decodeList decodeArchiveEntry)
  let transcripts ← (af.getField "transcripts").bind (decodeList decodeArchiveEntry)
  pure { call_ids := call_ids, audio := audio, transcripts := transcripts }

def decodeStateDoc (j : Json) : Option StateDoc := do
  let version ← (j.getField "version").bind asStr
  let created ← (j.getField "created").bind asStr
  let last_updated ← (j.getField "last_updated").bind asStr
  let stages ← (j.getField "stages").bind decodeStagesObj
  let archived_files ← (j.getField "archived_files").bind decodeArchivedFiles
  pure { version := version, created := created, last_updated := last_updated,
         stages := stages, archived_files := archived_files }

/-- `loadState`, as the JSON tree the in-memory state holds afterwards:
the parsed file when it exists and parses, the freshly built default
document otherwise.  The parse failure is also reported with a
`console.warn`, an effect outside the document. -/
def loadStateJson (fileContents : Option String) (now : String) : Json :=
  match fileContents with
  | some txt =>
    match jsonParse txt with
    | some j => j
    | none => encodeStateDoc (defaultState now)
  | none => encodeStateDoc (defaultState now)

/-- `retryFailed(stage)`.  The JS body takes `stageData = stages[stage]` and
deletes every key of each of the four `failed_*` maps that is a property of
`stageData`; each stage record owns exactly one of those four properties, so
exactly the failure map of the named stage is emptied (and nothing at all
for `get_call_ids` or an unknown stage name). -/
def retryFailed (s : StateDoc) (stage now : String) : StateDoc :=
  let s :=
    if stage = "download_audio" then
      { s with stages := { s.stages with download_audio :=
          { s.stages.download_audio with failed_downloads := [] } } }
    else if stage = "transcribe" then
      { s with stages := { s.stages with transcribe :=
          { s.stages.transcribe with failed_transcriptions := [] } } }
    else if stage = "upload_audio" then
      { s with stages := { s.stages with upload_audio :=
          { s.stages.upload_audio with failed_uploads := [] } } }
    else if stage = "analyze" then
      { s with stages := { s.stages with analyze :=
          { s.stages.analyze with failed_analyses := [] } } }
    else s
  saveState s now

/-! ### Concrete states used by the verification -/

/-- A fresh document. -/
def demo0 : StateDoc := defaultState "t0"

/-- `A` downloaded, transcribed and uploaded; `B` downloaded and
transcribed; `C` only downloaded. -/
def demoReadiness : StateDoc :=
  markAudioUploaded
    (markTranscribed
      (markTranscribed
        (markAudioDownloaded
          (markAudioDownloaded
            (markAudioDownloaded demo0 "A" "b1" "fA.wav" "/tmp/fA.wav" "t1")
            "B" "b1" "fB.wav" "/tmp/fB.wav" "t2")
          "C" "b2" "fC.wav" "/tmp/fC.wav" "t3")
        "A" "fA.wav" "/tmp/tpA.json" "t4")
      "B" "fB.wav" "/tmp/tpB.json" "t5")
    "A" "https://bubble/a" "t6"

/-- Ten extracted calls, three of them analyzed. -/
def demoStats : StateDoc :=
  markAnalyzed
    (markAnalyzed
      (markAnalyzed
        (markDateRangeProcessed demo0 "2025-01-01" "2025-01-02" 10 "t1")
        "A" { sentiment := "positive", success_rating := "5", call_disposition := "won" } "t2")
      "B" { sentiment := "negative", success_rating := "1", call_disposition := "lost" } "t3")
    "C" { sentiment := "neutral", success_rating := "3", call_disposition := "open" } "t4"

/-! ### Auxiliary notions for the persistence round trip -/

/-- A list of insignificant whitespace characters. -/
def WsOnly (l : List Char) : Prop := ∀ c ∈ l, isWsChar c = true

/-- A list of plain spaces (an indentation prefix). -/
def SpOnly (l : List Char) : Prop := ∀ c ∈ l, c = ' '

/-- Input that cannot extend a just-parsed number token. -/
def numStop : List Char → Prop
  | [] => True
  | c :: _ => isDigitChar c = false ∧ c ≠ '.' ∧ c ≠ 'e' ∧ c ≠ 'E'

/-- Input that does not begin with a digit. -/
def notDigitStart : List Char → Prop
  | [] => True
  | c :: _ => isDigitChar c = false

mutual

/-- Fuel sufficient for the descent to parse a rendered value. -/
def need : Json → Nat
  | .null => 1
  | .bool _ => 1
  | .num _ => 1
  | .str _ => 1
  | .arr [] => 1
  | .arr (x :: xs) => 1 + need x + needTailA xs
  | .obj [] => 1
  | .obj (m :: ms) => 1 + need m.2 + needTailO ms

/-- Fuel sufficient to parse a rendered array continuation. -/
def needTailA : List Json → Nat
  | [] => 1
  | y :: ys => 1 + need y + needTailA ys

/-- Fuel sufficient to parse a rendered object continuation. -/
def needTailO : List (String × Json) → Nat
  | [] => 1
  | m :: ms => 1 + need m.2 + needTailO ms

end

/-! ### Association-map lemmas -/

theorem jget_jset_self {α : Type} (m : JsMap α) (k : String) (v : α) :
    jget (jset m k v) k = some v := by
  induction m with
  | nil => simp [jset, jget]
  | cons h t ih =>
    obtain ⟨k0, v0⟩ := h
    by_cases hk : k0 = k <;> simp [jset, jget, hk, ih]

theorem exists_mem_jset_self {α : Type} (m : JsMap α) (k : String) (v : α) :
    ∃ w, (k, w) ∈ jset m k v := by
  induction m with
  | nil => exact ⟨v, by simp [jset]⟩
  | cons h t ih =>
    obtain ⟨k0, v0⟩ := h
    by_cases hk : k0 = k
    · subst hk
      exact ⟨v, by simp [jset]⟩
    · obtain ⟨w, hw⟩ := ih
      exact ⟨w, by simp [jset, hk, hw]⟩

theorem mem_jkeys_jset_self {α : Type} (m : JsMap α) (k : String) (v : α) :
    k ∈ jkeys (jset m k v) := by
  obtain ⟨w, hw⟩ := exists_mem_jset_self m k v
  exact List.mem_map.mpr ⟨(k, w), hw, rfl⟩

theorem jkeys_filter_subset {α : Type} (p : String × α → Bool) (m : JsMap α) :
    ∀ k, k ∈ jkeys (m.filter p) → k ∈ jkeys m := by
  intro k hk
  simp only [jkeys, List.mem_map] at hk ⊢
  obtain ⟨e, he, rfl⟩ := hk
  exact ⟨e, (List.mem_filter.mp he).1, rfl⟩

/-- On a real JS object (no duplicate keys), a key survives
`Object.keys(...).filter` exactly when its unique entry satisfies the
predicate. -/
theorem mem_jkeys_filter_iff {α : Type} (p : String × α → Bool) (m : JsMap α)
    (h : NodupKeys m) (k : String) :
    k ∈ jkeys (m.filter p) ↔ ∃ v, jget m k = some v ∧ p (k, v) = true := by
  induction m with
  | nil => simp [jkeys, jget]
  | cons hd t ih =>
    obtain ⟨k0, v0⟩ := hd
    have ht : NodupKeys t := (List.nodup_cons.mp h).2
    have hk0 : k0 ∉ jkeys t := (List.nodup_cons.mp h).1
    by_cases hk : k0 = k
    · subst hk
      by_cases hp : p (k0, v0) = true
      · simp [List.filter_cons, hp, jkeys, jget]
      · simp only [List.filter_cons, hp]
        simp only [Bool.false_eq_true, if_false, jget, if_pos rfl]
        constructor
        · intro hmem
          exact absurd (jkeys_filter_subset p t _ hmem) hk0
        · rintro ⟨v, hv, hpv⟩
          cases hv
          exact absurd hpv (by simpa using hp)
    · by_cases hp : p (k0, v0) = true
      · rw [List.filter_cons_of_pos hp]
        show k ∈ k0 :: jkeys (t.filter p) ↔ _
        rw [List.mem_cons, ih ht]
        constructor
        · rintro (rfl | hv)
          · exact absurd rfl hk
          · simpa [jget, hk] using hv
        · intro hv
          right
          simpa [jget, hk] using hv
      · rw [List.filter_cons_of_neg (by simpa using hp), ih ht]
        simp [jget, hk]

/-! ### C1 -/

/-- C1: `retryFailed(stage)` for each of the four stage names empties
exactly that stage's failure map and leaves the other three failure maps
untouched. -/
theorem retryFailed_scoped_to_named_stage (s : StateDoc) (now : String) :
    ((retryFailed s "download_audio" now).stages.download_audio.failed_downloads = [] ∧
      (retryFailed s "download_audio" now).stages.transcribe.failed_transcriptions =
        s.stages.transcribe.failed_transcriptions ∧
      (retryFailed s "download_audio" now).stages.upload_audio.failed_uploads =
        s.stages.upload_audio.failed_uploads ∧
      (retryFailed s "download_audio" now).stages.analyze.failed_analyses =
        s.stages.analyze.failed_analyses) ∧
    ((retryFailed s "transcribe" now).stages.transcribe.failed_transcriptions = [] ∧
      (retryFailed s "transcribe" now).stages.download_audio.failed_downloads =
        s.stages.download_audio.failed_downloads ∧
      (retryFailed s "transcribe" now).stages.upload_audio.failed_uploads =
        s.stages.upload_audio.failed_uploads ∧
      (retryFailed s "transcribe" now).stages.analyze.failed_analyses =
        s.stages.analyze.failed_analyses) ∧
    ((retryFailed s "upload_audio" now).stages.upload_audio.failed_uploads = [] ∧
      (retryFailed s "upload_audio" now).stages.download_audio.failed_downloads =
        s.stages.download_audio.failed_downloads ∧
      (retryFailed s "upload_audio" now).stages.transcribe.failed_transcriptions =
        s.stages.transcribe.failed_transcriptions ∧
      (retryFailed s "upload_audio" now).stages.analyze.failed_analyses =
        s.stages.analyze.failed_analyses) ∧
    ((retryFailed s "analyze" now).stages.analyze.failed_analyses = [] ∧
      (retryFailed s "analyze" now).stages.download_audio.failed_downloads =
        s.stages.download_audio.failed_downloads ∧
      (retryFailed s "analyze" now).stages.transcribe.failed_transcriptions =
        s.stages.transcribe.failed_transcriptions ∧
      (retryFailed s "analyze" now).stages.upload_audio.failed_uploads =
        s.stages.upload_audio.failed_uploads) :=
  ⟨⟨rfl, rfl, rfl, rfl⟩, ⟨rfl, rfl, rfl, rfl⟩, ⟨rfl, rfl, rfl, rfl⟩, ⟨rfl, rfl, rfl, rfl⟩⟩

/-! ### C2 -/

/-- C2: re-marking an already-completed download increments the running
total again — after the first mark `C1` is completed and the total is 1,
and the identical second mark pushes the total to 2, contradicting
`total_after_second_mark == total_after_first_mark`. -/
theorem markAudioDownloaded_double_increments :
    isAudioDownloaded
      (markAudioDownloaded (defaultState "t0") "C1" "B1" "a.wav" "/tmp/a.wav" "t1") "C1" = true ∧
    (markAudioDownloaded (defaultState "t0") "C1" "B1" "a.wav"
      "/tmp/a.wav" "t1").stages.download_audio.total_downloaded = 1 ∧
    (markAudioDownloaded
      (markAudioDownloaded (defaultState "t0") "C1" "B1" "a.wav" "/tmp/a.wav" "t1")
      "C1" "B1" "a.wav" "/tmp/a.wav" "t2").stages.download_audio.total_downloaded = 2 := by
  decide

/-! ### C3 -/

/-- C3 counterexample: after `markAudioDownloadFailed('C1')` followed by
`markAudioDownloaded('C1', ...)`, the call is completed yet `'C1'` still
appears in `getFailedItems().failed_downloads`, so it sits in both the
success map and the failure map at once. -/
theorem success_after_failure_cex :
    isAudioDownloaded
      (markAudioDownloaded (markAudioDownloadFailed (defaultState "t0") "C1" "boom" "t1")
        "C1" "B1" "a.wav" "/tmp/a.wav" "t2") "C1" = true ∧
    "C1" ∈ (getFailedItems
      (markAudioDownloaded (markAudioDownloadFailed (defaultState "t0") "C1" "boom" "t1")
        "C1" "B1" "a.wav" "/tmp/a.wav" "t2")).failed_downloads := by
  decide

/-- C3 amended: for every stage, marking a call failed and then marking it
succeeded leaves the stage predicate true, but the call id is still listed
by `getFailedItems()` for that stage — success marks never remove failure
entries; only `retryFailed` clears them. -/
theorem success_after_failure_keeps_failure_entry
    (s : StateDoc) (id err t1 b f p t2 tp url : String) (ad : AnalysisData) :
    (isAudioDownloaded
        (markAudioDownloaded (markAudioDownloadFailed s id err t1) id b f p t2) id = true ∧
      id ∈ (getFailedItems
        (markAudioDownloaded (markAudioDownloadFailed s id err t1) id b f p t2)).failed_downloads) ∧
    (isTranscribed
        (markTranscribed (markTranscriptionFailed s id err t1) id f tp t2) id = true ∧
      id ∈ (getFailedItems
        (markTranscribed (markTranscriptionFailed s id err t1) id f tp t2)).failed_transcriptions) ∧
    (isAudioUploaded
        (markAudioUploaded (markAudioUploadFailed s id err t1) id url t2) id = true ∧
      id ∈ (getFailedItems
        (markAudioUploaded (markAudioUploadFailed s id err t1) id url t2)).failed_uploads) ∧
    (isAnalyzed
        (markAnalyzed (markAnalysisFailed s id err t1) id ad t2) id = true ∧
      id ∈ (getFailedItems
        (markAnalyzed (markAnalysisFailed s id err t1) id ad t2)).failed_analyses) := by
  refine ⟨⟨?_, ?_⟩, ⟨?_, ?_⟩, ⟨?_, ?_⟩, ⟨?_, ?_⟩⟩ <;>
    simp [isAudioDownloaded, isTranscribed, isAudioUploaded, isAnalyzed,
      markAudioDownloaded, markAudioDownloadFailed, markTranscribed,
      markTranscriptionFailed, markAudioUploaded, markAudioUploadFailed,
      markAnalyzed, markAnalysisFailed, getFailedItems, saveState,
      jget_jset_self, mem_jkeys_jset_self]

/-! ### C6 -/

/-- C6: `getProcessingStats` never divides by zero — with no extracted
calls the completion rate is the string `"0%"`, and with 10 extracted and
3 analyzed it is `"30.0%"`. -/
theorem completion_rate_safe :
    (∀ s : StateDoc, s.stages.get_call_ids.total_calls_extracted = 0 →
      (getProcessingStats s).completion_rate = "0%") ∧
    demoStats.stages.get_call_ids.total_calls_extracted = 10 ∧
    demoStats.stages.analyze.total_analyzed = 3 ∧
    (getProcessingStats demoStats).completion_rate = "30.0%" := by
  refine ⟨?_, by decide, by decide, by decide⟩
  intro s h
  simp [getProcessingStats, h]

/-- Witness for C6 at the freshly initialized document. -/
theorem completion_rate_safe_witness :
    (defaultState "t0").stages.get_call_ids.total_calls_extracted = 0 ∧
    (getProcessingStats (defaultState "t0")).completion_rate = "0%" :=
  ⟨rfl, completion_rate_safe.1 (defaultState "t0") rfl⟩

/-! ### C8 -/

/-- C8: `isDateRangeProcessed(start, end)` holds exactly when some
recorded range matches both bounds by string equality — overlap or
containment without exact equality never counts. -/
theorem isDateRangeProcessed_exact_match (s : StateDoc) (startDate endDate : String) :
    isDateRangeProcessed s startDate endDate = true ↔
      ∃ r ∈ s.stages.get_call_ids.processed_date_ranges,
        r.start_date = startDate ∧ r.end_date = endDate := by
  simp [isDateRangeProcessed, List.any_eq_true, Bool.and_eq_true]

/-! ### C4 and C10: the readiness filter -/

theorem isAudioDownloaded_iff_entry (s : StateDoc) (id : String) :
    isAudioDownloaded s id = true ↔
      ∃ v, jget s.stages.download_audio.downloaded_files id = some v ∧
        v.status = "completed" := by
  unfold isAudioDownloaded
  rcases hj : jget s.stages.download_audio.downloaded_files id with _ | e <;> simp [hj]

/-- The baseline of the readiness filter is exactly the set of completed
downloads. -/
theorem mem_baselineCalls (s : StateDoc) (id : String)
    (h : NodupKeys s.stages.download_audio.downloaded_files) :
    id ∈ baselineCalls s ↔ isAudioDownloaded s id = true := by
  rw [baselineCalls, mem_jkeys_filter_iff _ _ h, isAudioDownloaded_iff_entry]
  simp

/-- C4: `getCallsForProcessing` starts from the completed downloads and
filters by stage readiness — `transcribe` keeps the not-yet-transcribed,
`upload_audio` the not-yet-uploaded, `analyze` those transcribed and
uploaded but not yet analyzed; on the concrete A/B/C state, `analyze`
yields exactly `["A"]` and `upload_audio` exactly `["B", "C"]`. -/
theorem getCallsForProcessing_readiness (s : StateDoc) (id : String)
    (h : NodupKeys s.stages.download_audio.downloaded_files) :
    (id ∈ getCallsForProcessing s "transcribe" ↔
      isAudioDownloaded s id = true ∧ isTranscribed s id = false) ∧
    (id ∈ getCallsForProcessing s "upload_audio" ↔
      isAudioDownloaded s id = true ∧ isAudioUploaded s id = false) ∧
    (id ∈ getCallsForProcessing s "analyze" ↔
      isAudioDownloaded s id = true ∧ isTranscribed s id = true ∧
        isAudioUploaded s id = true ∧ isAnalyzed s id = false) ∧
    getCallsForProcessing demoReadiness "analyze" = ["A"] ∧
    getCallsForProcessing demoReadiness "upload_audio" = ["B", "C"] := by
  have hb := mem_baselineCalls s id h
  refine ⟨?_, ?_, ?_, by decide, by decide⟩
  · show id ∈ (baselineCalls s).filter (fun c => !isTranscribed s c) ↔ _
    rw [List.mem_filter, hb]
    simp [Bool.not_eq_true']
  · show id ∈ (baselineCalls s).filter (fun c => !isAudioUploaded s c) ↔ _
    rw [List.mem_filter, hb]
    simp [Bool.not_eq_true']
  · show id ∈ (baselineCalls s).filter
      (fun c => isTranscribed s c && isAudioUploaded s c && !isAnalyzed s c) ↔ _
    rw [List.mem_filter, hb]
    simp [Bool.not_eq_true', and_assoc]

/-- Witness for C4 on the concrete A/B/C state. -/
theorem getCallsForProcessing_readiness_witness :
    NodupKeys demoReadiness.stages.download_audio.downloaded_files ∧
    (("A" ∈ getCallsForProcessing demoReadiness "analyze" ↔
        isAudioDownloaded demoReadiness "A" = true ∧
          isTranscribed demoReadiness "A" = true ∧
          isAudioUploaded demoReadiness "A" = true ∧
          isAnalyzed demoReadiness "A" = false) ∧
      getCallsForProcessing demoReadiness "analyze" = ["A"] ∧
      getCallsForProcessing demoReadiness "upload_audio" = ["B", "C"]) :=
  ⟨by decide,
    ⟨(getCallsForProcessing_readiness demoReadiness "A" (by decide)).2.2.1,
     (getCallsForProcessing_readiness demoReadiness "A" (by decide)).2.2.2.1,
     (getCallsForProcessing_readiness demoReadiness "A" (by decide)).2.2.2.2⟩⟩

/-- C10: any stage name other than the three known ones returns the
unfiltered baseline — every call id with a completed download entry, with
no readiness filtering. -/
theorem getCallsForProcessing_unknown_stage (s : StateDoc) (stage : String)
    (h1 : stage ≠ "transcribe") (h2 : stage ≠ "upload_audio") (h3 : stage ≠ "analyze") :
    getCallsForProcessing s stage = baselineCalls s ∧
    (NodupKeys s.stages.download_audio.downloaded_files →
      ∀ id, id ∈ getCallsForProcessing s stage ↔ isAudioDownloaded s id = true) ∧
    getCallsForProcessing demoReadiness "" = ["A", "B", "C"] ∧
    getCallsForProcessing demoReadiness "bogus" = ["A", "B", "C"] := by
  have he : getCallsForProcessing s stage = baselineCalls s := by
    simp [getCallsForProcessing, h1, h2, h3]
  exact ⟨he, fun hnd id => he ▸ mem_baselineCalls s id hnd, by decide, by decide⟩

/-- Witness for C10 at an unknown stage name. -/
theorem getCallsForProcessing_unknown_stage_witness :
    getCallsForProcessing demoReadiness "bogus" = baselineCalls demoReadiness ∧
    ("C" ∈ getCallsForProcessing demoReadiness "bogus" ↔
      isAudioDownloaded demoReadiness "C" = true) :=
  ⟨(getCallsForProcessing_unknown_stage demoReadiness "bogus"
      (by decide) (by decide) (by decide)).1,
   (getCallsForProcessing_unknown_stage demoReadiness "bogus"
      (by decide) (by decide) (by decide)).2.1 (by decide) "C"⟩

/-! ### C5: archiving -/

/-- C5 counterexample: archiving a file that already sits at today's
archive destination succeeds (`fs.renameSync` onto the same path is a
no-op), appends an archive record, and returns the destination — yet the
source file still exists at its original path, refuting "on success the
moved file no longer exists at its original path". -/
theorem archiveFile_self_rename_cex :
    (archiveFile ["archive/audio/2025-01-01/x.wav"] (defaultState "t0") "archive"
        "archive/audio/2025-01-01/x.wav" "audio" none "2025-01-01T00:00:00.000Z").1 =
      some "archive/audio/2025-01-01/x.wav" ∧
    "archive/audio/2025-01-01/x.wav" ∈
      (archiveFile ["archive/audio/2025-01-01/x.wav"] (defaultState "t0") "archive"
        "archive/audio/2025-01-01/x.wav" "audio" none "2025-01-01T00:00:00.000Z").2.1 ∧
    (archiveFile ["archive/audio/2025-01-01/x.wav"] (defaultState "t0") "archive"
        "archive/audio/2025-01-01/x.wav" "audio" none
        "2025-01-01T00:00:00.000Z").2.2.archived_files.audio.length = 1 := by
  decide

/-- C5 amended: `archiveFile` is all-or-nothing for the state document —
a failed move returns `none` and leaves file system and document
untouched; a successful move returns the destination, appends exactly one
record to `archived_files[category]`, and removes the source from its
original path whenever the computed destination differs from the source
path (a self-rename leaves the file in place). -/
theorem archiveFile_state_atomicity (files : List String) (s : StateDoc)
    (archiveDir sourceFile category : String) (callId : Option String) (now : String) :
    (sourceFile ∉ files →
      archiveFile files s archiveDir sourceFile category callId now = (none, files, s)) ∧
    (∀ entries, sourceFile ∈ files →
      getCategory s.archived_files category = some entries →
      archiveFile files s archiveDir sourceFile category callId now =
        (some (pathJoin (pathJoin (pathJoin archiveDir category) (dateOf now))
            (basename sourceFile)),
          (files.erase sourceFile).insert
            (pathJoin (pathJoin (pathJoin archiveDir category) (dateOf now))
              (basename sourceFile)),
          saveState
            { s with
              archived_files :=
                setCategory s.archived_files category (entries ++
                  [{ call_id := callId, original_filename := basename sourceFile,
                     archive_path := pathJoin (pathJoin (pathJoin archiveDir category) (dateOf now)) (basename sourceFile),
                     archived_at := now }]) } now)) ∧
    (files.Nodup → sourceFile ∈ files →
      pathJoin (pathJoin (pathJoin archiveDir category) (dateOf now))
          (basename sourceFile) ≠ sourceFile →
      sourceFile ∉ (archiveFile files s archiveDir sourceFile category callId now).2.1) := by
  refine ⟨?_, ?_, ?_⟩
  · intro h
    simp [archiveFile, renameSync, h]
  · intro entries hmem hcat
    simp [archiveFile, renameSync, hmem, hcat]
  · intro hnd hmem hne
    have hfs : (archiveFile files s archiveDir sourceFile category callId now).2.1 =
        (files.erase sourceFile).insert
          (pathJoin (pathJoin (pathJoin archiveDir category) (dateOf now))
            (basename sourceFile)) := by
      rcases hcat : getCategory s.archived_files category with _ | entries <;>
        simp [archiveFile, renameSync, hmem, hcat]
    rw [hfs]
    intro hin
    rcases List.mem_insert_iff.mp hin with h1 | h2
    · exact hne h1.symm
    · exact hnd.not_mem_erase h2

/-- Witness for C5: a missing source is rejected without touching
anything, and a genuine move removes the source path. -/
theorem archiveFile_state_atomicity_witness :
    ("/tmp/y.wav" ∉ ([] : List String) ∧
      archiveFile [] (defaultState "t0") "archive" "/tmp/y.wav" "audio" none
        "2025-01-02T10:00:00.000Z" = (none, [], defaultState "t0")) ∧
    ("/tmp/y.wav" ∈ ["/tmp/y.wav"] ∧
      "/tmp/y.wav" ∉
        (archiveFile ["/tmp/y.wav"] (defaultState "t0") "archive" "/tmp/y.wav" "audio"
          none "2025-01-02T10:00:00.000Z").2.1) :=
  ⟨⟨by decide,
    (archiveFile_state_atomicity [] (defaultState "t0") "archive" "/tmp/y.wav"
      "audio" none "2025-01-02T10:00:00.000Z").1 (by decide)⟩,
   ⟨by decide,
    (archiveFile_state_atomicity ["/tmp/y.wav"] (defaultState "t0") "archive"
      "/tmp/y.wav" "audio" none "2025-01-02T10:00:00.000Z").2.2
      (by decide) (by decide) (by decide)⟩⟩

/-! ### C7: corrupt state file -/

/-- C7: when the state file exists but does not parse as JSON, loading
never fails — the constructor warns and starts from the freshly
initialized zero-value document: empty stage maps, zero totals, empty
archive lists. -/
theorem loadState_corrupt_falls_back (txt now : String) (h : jsonParse txt = none) :
    loadStateJson (some txt) now = encodeStateDoc (defaultState now) ∧
    (defaultState now).stages.download_audio.downloaded_files = [] ∧
    (defaultState now).stages.download_audio.failed_downloads = [] ∧
    (defaultState now).stages.transcribe.transcribed_files = [] ∧
    (defaultState now).stages.transcribe.failed_transcriptions = [] ∧
    (defaultState now).stages.upload_audio.uploaded_files = [] ∧
    (defaultState now).stages.upload_audio.failed_uploads = [] ∧
    (defaultState now).stages.analyze.analyzed_calls = [] ∧
    (defaultState now).stages.analyze.failed_analyses = [] ∧
    (defaultState now).stages.get_call_ids.processed_date_ranges = [] ∧
    (defaultState now).stages.get_call_ids.total_calls_extracted = 0 ∧
    (defaultState now).stages.download_audio.total_downloaded = 0 ∧
    (defaultState now).stages.transcribe.total_transcribed = 0 ∧
    (defaultState now).stages.upload_audio.total_uploaded = 0 ∧
    (defaultState now).stages.analyze.total_analyzed = 0 ∧
    (defaultState now).archived_files.call_ids = [] ∧
    (defaultState now).archived_files.audio = [] ∧
    (defaultState now).archived_files.transcripts = [] := by
  refine ⟨?_, rfl, rfl, rfl, rfl, rfl, rfl, rfl, rfl, rfl, rfl, rfl, rfl, rfl, rfl,
    rfl, rfl, rfl⟩
  simp [loadStateJson, h]

/-- Witness for C7 on a truncated JSON file. -/
theorem loadState_corrupt_falls_back_witness :
    jsonParse "\x7b" = none ∧
    loadStateJson (some "\x7b") "t0" = encodeStateDoc (defaultState "t0") :=
  ⟨by rfl, (loadState_corrupt_falls_back "\x7b" "t0" (by rfl)).1⟩

/-! ### C9, step 1: whitespace and string literals -/

theorem skipWs_append (pre cs : List Char) (h : WsOnly pre) :
    skipWs (pre ++ cs) = skipWs cs := by
  induction pre with
  | nil => rfl
  | cons c p ih =>
    have hc : isWsChar c = true := h c (by simp)
    have hp : WsOnly p := fun d hd => h d (by simp [hd])
    simp [skipWs, hc, ih hp]

theorem skipWs_cons_not_ws (c : Char) (cs : List Char) (h : isWsChar c = false) :
    skipWs (c :: cs) = c :: cs := by
  simp [skipWs, h]

theorem hexVal_hexDigit (k : Nat) (h : k < 16) : hexVal (hexDigit k) = some k := by
  interval_cases k <;> rfl

theorem parseStrBody_escList (l rest : List Char) :
    parseStrBody (escList l ++ ('"' :: rest)) = some (l, rest) := by
  induction l with
  | nil =>
    show parseStrBody ('"' :: rest) = some ([], rest)
    rw [parseStrBody.eq_def]
    simp
  | cons c cs ih =>
    show parseStrBody ((escapeChar c ++ escList cs) ++ ('"' :: rest)) = _
    rw [List.append_assoc]
    by_cases h1 : c = '"'
    · subst h1
      show parseStrBody ('\\' :: '"' :: (escList cs ++ '"' :: rest)) = _
      rw [parseStrBody.eq_def]
      simp [unescapeChar, ih]
    by_cases h2 : c = '\\'
    · subst h2
      show parseStrBody ('\\' :: '\\' :: (escList cs ++ '"' :: rest)) = _
      rw [parseStrBody.eq_def]
      simp [unescapeChar, ih]
    by_cases h3 : c = '\x08'
    · subst h3
      show parseStrBody ('\\' :: 'b' :: (escList cs ++ '"' :: rest)) = _
      rw [parseStrBody.eq_def]
      simp [unescapeChar, ih]
    by_cases h4 : c = '\t'
    · subst h4
      show parseStrBody ('\\' :: 't' :: (escList cs ++ '"' :: rest)) = _
      rw [parseStrBody.eq_def]
      simp [unescapeChar, ih]
    by_cases h5 : c = '\n'
    · subst h5
      show parseStrBody ('\\' :: 'n' :: (escList cs ++ '"' :: rest)) = _
      rw [parseStrBody.eq_def]
      simp [unescapeChar, ih]
    by_cases h6 : c = '\x0c'
    · subst h6
      show parseStrBody ('\\' :: 'f' :: (escList cs ++ '"' :: rest)) = _
      rw [parseStrBody.eq_def]
      simp [unescapeChar, ih]
    by_cases h7 : c = '\x0d'
    · subst h7
      show parseStrBody ('\\' :: 'r' :: (escList cs ++ '"' :: rest)) = _
      rw [parseStrBody.eq_def]
      simp [unescapeChar, ih]
    by_cases h8 : c.toNat < 32
    · have hesc : escapeChar c =
          ['\\', 'u', '0', '0', hexDigit (c.toNat / 16), hexDigit (c.toNat % 16)] := by
        simp only [escapeChar, if_neg h1, if_neg h2, if_neg h3, if_neg h4, if_neg h5,
          if_neg h6, if_neg h7, if_pos h8]
      rw [hesc]
      show parseStrBody ('\\' :: 'u' :: '0' :: '0' :: hexDigit (c.toNat / 16) ::
        hexDigit (c.toNat % 16) :: (escList cs ++ '"' :: rest)) = _
      rw [parseStrBody.eq_def]
      have hd16 : c.toNat / 16 < 16 := by omega
      have hm16 : c.toNat % 16 < 16 := by omega
      have h0 : hexVal '0' = some 0 := rfl
      have hx : c.toNat / 16 * 16 + c.toNat % 16 = c.toNat := by omega
      simp [h0, hexVal_hexDigit _ hd16, hexVal_hexDigit _ hm16, ih, hx, Char.ofNat_toNat]
    · have hesc : escapeChar c = [c] := by
        simp only [escapeChar, if_neg h1, if_neg h2, if_neg h3, if_neg h4, if_neg h5,
          if_neg h6, if_neg h7, if_neg h8]
      rw [hesc]
      show parseStrBody (c :: (escList cs ++ '"' :: rest)) = _
      rw [parseStrBody.eq_def]
      simp [h1, h2, h8, ih]

/-! ### C9, step 2: numbers -/

theorem toNat_ofNat_digit (k : Nat) (h : k < 10) :
    (Char.ofNat (48 + k)).toNat = 48 + k := by
  interval_cases k <;> rfl

theorem renderNat_digits (n : Nat) : ∀ c ∈ renderNat n, isDigitChar c = true := by
  induction n using Nat.strong_induction_on with
  | _ n ih =>
    intro c hc
    unfold renderNat at hc
    split at hc
    · next h =>
      simp only [List.mem_singleton] at hc
      subst hc
      simp [isDigitChar, toNat_ofNat_digit n h]
      omega
    · next h =>
      rcases List.mem_append.mp hc with h1 | h2
      · exact ih (n / 10) (Nat.div_lt_self (by omega) (by omega)) c h1
      · simp only [List.mem_singleton] at h2
        subst h2
        simp [isDigitChar, toNat_ofNat_digit (n % 10) (by omega)]
        omega

theorem renderNat_ne_nil (n : Nat) : renderNat n ≠ [] := by
  unfold renderNat
  split <;> simp

/-- Every property a digit character needs in the descent: it is not
whitespace and not any dispatch character. -/
theorem digit_facts (c : Char) (h : isDigitChar c = true) :
    isWsChar c = false ∧ c ≠ '[' ∧ c ≠ '\x7b' ∧ c ≠ '"' ∧ c ≠ 't' ∧ c ≠ 'f' ∧
      c ≠ 'n' ∧ c ≠ '-' ∧ c ≠ ']' ∧ c ≠ '\x7d' := by
  have hn : 48 ≤ c.toNat ∧ c.toNat ≤ 57 := by simpa [isDigitChar] using h
  refine ⟨?_, ?_, ?_, ?_, ?_, ?_, ?_, ?_, ?_, ?_⟩
  · by_contra hw
    rw [Bool.not_eq_false] at hw
    rcases (show ((c = ' ' ∨ c = '\t') ∨ c = '\n') ∨ c = '\x0d' from by
      simpa [isWsChar] using hw) with ((rfl | rfl) | rfl) | rfl <;>
      exact absurd hn (by decide)
  all_goals rintro rfl; exact absurd hn (by decide)

theorem digitsVal_append (a b : List Char) :
    ∀ acc, digitsVal acc (a ++ b) = digitsVal (digitsVal acc a) b := by
  induction a with
  | nil => intro acc; rfl
  | cons c cs ih => intro acc; simp [digitsVal, List.foldl_append]

theorem digitsVal_renderNat (n : Nat) :
    ∀ acc, digitsVal acc (renderNat n) = acc * 10 ^ (renderNat n).length + n := by
  induction n using Nat.strong_induction_on with
  | _ n ih =>
    intro acc
    unfold renderNat
    split
    · next h =>
      simp [digitsVal, toNat_ofNat_digit n h]
    · next h =>
      rw [digitsVal_append]
      rw [ih _ (Nat.div_lt_self (by omega) (by omega))]
      simp [digitsVal, toNat_ofNat_digit (n % 10) (by omega), pow_succ]
      have := Nat.div_add_mod n 10
      ring_nf
      omega

theorem renderNat_head_ne_zero (n : Nat) (hn : n ≠ 0) :
    ∀ c cs, renderNat n = c :: cs → c ≠ '0' := by
  induction n using Nat.strong_induction_on with
  | _ n ih =>
    intro c cs hr
    unfold renderNat at hr
    split at hr
    · next h =>
      obtain ⟨rfl, rfl⟩ : Char.ofNat (48 + n) = c ∧ [] = cs := by
        simpa using hr
      intro h0
      have := congrArg Char.toNat h0
      rw [toNat_ofNat_digit n h] at this
      simp [show ('0' : Char).toNat = 48 from rfl] at this
      omega
    · next h =>
      obtain ⟨c', cs', hrn⟩ := List.exists_cons_of_ne_nil (renderNat_ne_nil (n / 10))
      rw [hrn] at hr
      simp only [List.cons_append, List.cons.injEq] at hr
      obtain ⟨rfl, -⟩ := hr
      exact ih (n / 10) (Nat.div_lt_self (by omega) (by omega)) (by omega) c' cs' hrn

theorem takeDigits_append (ds rest : List Char)
    (hds : ∀ c ∈ ds, isDigitChar c = true) (hrest : notDigitStart rest) :
    takeDigits (ds ++ rest) = (ds, rest) := by
  induction ds with
  | nil =>
    cases rest with
    | nil => rfl
    | cons c r =>
      have : isDigitChar c = false := hrest
      simp [takeDigits, this]
  | cons c cs ih =>
    have hc : isDigitChar c = true := hds c (by simp)
    have hcs : ∀ d ∈ cs, isDigitChar d = true := fun d hd => hds d (by simp [hd])
    simp [takeDigits, hc, ih hcs]

theorem consumeFrac_stop (cs : List Char) (h : numStop cs) : consumeFrac cs = some cs := by
  cases cs with
  | nil => rfl
  | cons c r =>
    obtain ⟨-, hdot, -, -⟩ := h
    simp [consumeFrac, hdot]

theorem consumeExp_stop (cs : List Char) (h : numStop cs) : consumeExp cs = some cs := by
  cases cs with
  | nil => rfl
  | cons c r =>
    obtain ⟨-, -, he, hE⟩ := h
    simp [consumeExp, he, hE]

theorem notDigitStart_of_numStop (cs : List Char) (h : numStop cs) : notDigitStart cs := by
  cases cs with
  | nil => trivial
  | cons c r => exact h.1

theorem parseIntPart_renderNat (n : Nat) (rest : List Char) (h : notDigitStart rest) :
    parseIntPart (renderNat n ++ rest) = some (n, rest) := by
  by_cases hn : n = 0
  · subst hn
    have h0 : renderNat 0 = ['0'] := by
      unfold renderNat
      norm_num
    rw [h0]
    show parseIntPart ('0' :: rest) = some (0, rest)
    rw [parseIntPart.eq_def]
    cases rest with
    | nil => simp
    | cons c r =>
      have : isDigitChar c = false := h
      simp [this]
  · obtain ⟨c, cs0, hrn⟩ := List.exists_cons_of_ne_nil (renderNat_ne_nil n)
    have hall : ∀ d ∈ renderNat n, isDigitChar d = true := renderNat_digits n
    have hc0 : c ≠ '0' := renderNat_head_ne_zero n hn c cs0 hrn
    have ht : takeDigits (renderNat n ++ rest) = (renderNat n, rest) :=
      takeDigits_append _ _ hall h
    rw [hrn] at ht ⊢
    show parseIntPart (c :: (cs0 ++ rest)) = _
    rw [parseIntPart.eq_def]
    simp only [if_neg hc0]
    rw [show c :: (cs0 ++ rest) = (c :: cs0) ++ rest from rfl, ht]
    have hv : digitsVal 0 (renderNat n) = n := by
      rw [digitsVal_renderNat]
      simp
    rw [hrn] at hv
    simp [hv]

theorem parseNum_renderInt (i : Int) (rest : List Char) (h : numStop rest) :
    parseNum (renderInt i ++ rest) = some (i, rest) := by
  have hnds : notDigitStart rest := notDigitStart_of_numStop rest h
  cases i with
  | ofNat n =>
    obtain ⟨c, cs0, hrn⟩ := List.exists_cons_of_ne_nil (renderNat_ne_nil n)
    have hcd : isDigitChar c = true :=
      renderNat_digits n c (by rw [hrn]; exact List.mem_cons_self _ _)
    have hdash : c ≠ '-' := (digit_facts c hcd).2.2.2.2.2.2.2.1
    show parseNum (renderNat n ++ rest) = some ((n : Int), rest)
    rw [hrn]
    show parseNum (c :: (cs0 ++ rest)) = _
    rw [parseNum.eq_def]
    simp only [if_neg hdash]
    rw [show c :: (cs0 ++ rest) = renderNat n ++ rest from by rw [hrn, List.cons_append]]
    unfold parseNumAfterSign
    rw [parseIntPart_renderNat n rest hnds]
    simp [consumeFrac_stop rest h, consumeExp_stop rest h]
  | negSucc m =>
    show parseNum ('-' :: (renderNat (m + 1) ++ rest)) = _
    rw [parseNum.eq_def]
    simp only [if_pos rfl]
    unfold parseNumAfterSign
    rw [parseIntPart_renderNat (m + 1) rest hnds]
    simp [consumeFrac_stop rest h, consumeExp_stop rest h, Int.negSucc_eq]

/-! ### C9, step 3: heads and whitespace bookkeeping -/

theorem skipWs_ws_cons (ws0 : List Char) (c : Char) (t : List Char)
    (hws : WsOnly ws0) (hc : isWsChar c = false) :
    skipWs (ws0 ++ c :: t) = c :: t := by
  rw [skipWs_append _ _ hws, skipWs_cons_not_ws _ _ hc]

theorem WsOnly_of_SpOnly (l : List Char) (h : SpOnly l) : WsOnly l := by
  intro c hc
  rw [h c hc]
  rfl

theorem SpOnly_sp2 (ind : List Char) (h : SpOnly ind) : SpOnly (sp2 ++ ind) := by
  intro c hc
  rcases List.mem_append.mp hc with h1 | h2
  · have h1' : c ∈ [' ', ' '] := by simpa [sp2] using h1
    simpa using h1'
  · exact h c h2

theorem WsOnly_nl (l : List Char) (h : SpOnly l) : WsOnly ('\n' :: l) := by
  intro c hc
  rcases List.mem_cons.mp hc with rfl | hc
  · rfl
  · exact WsOnly_of_SpOnly l h c hc

theorem renderInt_head (i : Int) :
    ∃ c cs, renderInt i = c :: cs ∧ (isDigitChar c = true ∨ c = '-') := by
  cases i with
  | ofNat n =>
    obtain ⟨c, cs, h⟩ := List.exists_cons_of_ne_nil (renderNat_ne_nil n)
    exact ⟨c, cs, h, Or.inl (renderNat_digits n c (h ▸ List.mem_cons_self _ _))⟩
  | negSucc m => exact ⟨'-', renderNat (m + 1), rfl, Or.inr rfl⟩

/-- The first character of any rendered value: never whitespace, never a
closing bracket. -/
theorem render_head (ind : List Char) (j : Json) :
    ∃ c cs, render ind j = c :: cs ∧ isWsChar c = false ∧ c ≠ ']' ∧ c ≠ '\x7d' := by
  cases j with
  | null => exact ⟨'n', ['u', 'l', 'l'], by simp [render], by decide, by decide, by decide⟩
  | bool b =>
    cases b
    · exact ⟨'f', ['a', 'l', 's', 'e'], by simp [render], by decide, by decide, by decide⟩
    · exact ⟨'t', ['r', 'u', 'e'], by simp [render], by decide, by decide, by decide⟩
  | num i =>
    obtain ⟨c, cs, hr, hd⟩ := renderInt_head i
    refine ⟨c, cs, by simp [render, hr], ?_, ?_, ?_⟩
    · rcases hd with hd | rfl
      · exact (digit_facts c hd).1
      · decide
    · rcases hd with hd | rfl
      · exact (digit_facts c hd).2.2.2.2.2.2.2.2.1
      · decide
    · rcases hd with hd | rfl
      · exact (digit_facts c hd).2.2.2.2.2.2.2.2.2
      · decide
  | str s =>
    exact ⟨'"', escList s.data ++ ['"'], by simp [render, renderStr],
      by decide, by decide, by decide⟩
  | arr l =>
    cases l with
    | nil => exact ⟨'[', [']'], by simp [render], by decide, by decide, by decide⟩
    | cons x xs =>
      exact ⟨'[', '\n' :: (sp2 ++ ind ++ render (sp2 ++ ind) x ++
        renderArrRest (sp2 ++ ind) xs ++ '\n' :: (ind ++ [']'])),
        by simp [render], by decide, by decide, by decide⟩
  | obj l =>
    cases l with
    | nil => exact ⟨'\x7b', ['\x7d'], by simp [render], by decide, by decide, by decide⟩
    | cons m ms =>
      exact ⟨'\x7b', '\n' :: (sp2 ++ ind ++ renderMember (sp2 ++ ind) m ++
        renderObjRest (sp2 ++ ind) ms ++ '\n' :: (ind ++ ['\x7d'])),
        by simp [render], by decide, by decide, by decide⟩

theorem need_pos (j : Json) : 1 ≤ need j := by
  cases j with
  | arr l => cases l <;> simp [need] <;> omega
  | obj l => cases l <;> simp [need] <;> omega
  | _ => simp [need]

theorem needTailA_pos (l : List Json) : 1 ≤ needTailA l := by
  cases l <;> simp [needTailA] <;> omega

theorem needTailO_pos (ms : List (String × Json)) : 1 ≤ needTailO ms := by
  cases ms <;> simp [needTailO] <;> omega


theorem numStop_renderArrRest (ind1 : List Char) (ys : List Json) (t : List Char) :
    numStop (renderArrRest ind1 ys ++ '\n' :: t) := by
  cases ys with
  | nil =>
    show numStop ('\n' :: t)
    exact ⟨by decide, by decide, by decide, by decide⟩
  | cons y ys =>
    show numStop (',' :: _)
    exact ⟨by decide, by decide, by decide, by decide⟩

theorem numStop_renderObjRest (ind1 : List Char) (ms : List (String × Json)) (t : List Char) :
    numStop (renderObjRest ind1 ms ++ '\n' :: t) := by
  cases ms with
  | nil =>
    show numStop ('\n' :: t)
    exact ⟨by decide, by decide, by decide, by decide⟩
  | cons m ms =>
    show numStop (',' :: _)
    exact ⟨by decide, by decide, by decide, by decide⟩

theorem parseKeyColon_rendered (ind1 : List Char) (hsp1 : SpOnly ind1) (k : String)
    (t : List Char) :
    parseKeyColon ('\n' :: ind1 ++ ('"' :: (escList k.data ++ '"' :: ':' :: ' ' :: t))) =
      some (k, ' ' :: t) := by
  rw [parseKeyColon, skipWs_ws_cons ('\n' :: ind1) '"' _ (WsOnly_nl ind1 hsp1) (by decide)]
  simp [parseStrBody_escList, skipWs, isWsChar]

set_option maxHeartbeats 1000000 in
theorem parse_render_master (fuel : Nat) :
    (∀ j ind ws0 rest, need j ≤ fuel → SpOnly ind → WsOnly ws0 → numStop rest →
      parseF .val fuel (ws0 ++ render ind j ++ rest) = some (.v j, rest)) ∧
    (∀ l ind rest, needTailA l ≤ fuel → SpOnly ind →
      parseF .arrTail fuel
        (renderArrRest (sp2 ++ ind) l ++ '\n' :: (ind ++ ']' :: rest)) =
        some (.elems l, rest)) ∧
    (∀ ms ind rest, needTailO ms ≤ fuel → SpOnly ind →
      parseF .objTail fuel
        (renderObjRest (sp2 ++ ind) ms ++ '\n' :: (ind ++ '\x7d' :: rest)) =
        some (.members ms, rest)) := by
  induction fuel with
  | zero =>
    refine ⟨?_, ?_, ?_⟩
    · intro j ind ws0 rest hn _ _ _
      exact absurd (le_trans (need_pos j) hn) (by omega)
    · intro l ind rest hn _
      exact absurd (le_trans (needTailA_pos l) hn) (by omega)
    · intro ms ind rest hn _
      exact absurd (le_trans (needTailO_pos ms) hn) (by omega)
  | succ F ih =>
    obtain ⟨ihv, iha, iho⟩ := ih
    refine ⟨?_, ?_, ?_⟩
    · intro j ind ws0 rest hneed hsp hws hnum
      cases j with
      | null =>
        have hr : render ind Json.null = 'n' :: 'u' :: 'l' :: 'l' :: [] := by simp [render]
        rw [hr, parseF]
        rw [show ws0 ++ ['n', 'u', 'l', 'l'] ++ rest = ws0 ++ 'n' :: 'u' :: 'l' :: 'l' :: rest
          from by simp]
        rw [skipWs_ws_cons ws0 'n' _ hws (by decide)]
        simp
      | bool b =>
        cases b with
        | false =>
          have hr : render ind (Json.bool false) = 'f' :: 'a' :: 'l' :: 's' :: 'e' :: [] := by
            simp [render]
          rw [hr, parseF]
          rw [show ws0 ++ ['f', 'a', 'l', 's', 'e'] ++ rest =
            ws0 ++ 'f' :: 'a' :: 'l' :: 's' :: 'e' :: rest from by simp]
          rw [skipWs_ws_cons ws0 'f' _ hws (by decide)]
          simp
        | true =>
          have hr : render ind (Json.bool true) = 't' :: 'r' :: 'u' :: 'e' :: [] := by
            simp [render]
          rw [hr, parseF]
          rw [show ws0 ++ ['t', 'r', 'u', 'e'] ++ rest = ws0 ++ 't' :: 'r' :: 'u' :: 'e' :: rest
            from by simp]
          rw [skipWs_ws_cons ws0 't' _ hws (by decide)]
          simp
      | num i =>
        obtain ⟨c, cs0, hrn, hd⟩ := renderInt_head i
        have hr : render ind (Json.num i) = renderInt i := by simp [render]
        have hcw : isWsChar c = false := by
          rcases hd with hd | rfl
          · exact (digit_facts c hd).1
          · decide
        have hlb : c ≠ '[' := by
          rcases hd with hd | rfl
          · exact (digit_facts c hd).2.1
          · decide
        have hob : c ≠ '\x7b' := by
          rcases hd with hd | rfl
          · exact (digit_facts c hd).2.2.1
          · decide
        have hq : c ≠ '"' := by
          rcases hd with hd | rfl
          · exact (digit_facts c hd).2.2.2.1
          · decide
        have htc : c ≠ 't' := by
          rcases hd with hd | rfl
          · exact (digit_facts c hd).2.2.2.2.1
          · decide
        have hfc : c ≠ 'f' := by
          rcases hd with hd | rfl
          · exact (digit_facts c hd).2.2.2.2.2.1
          · decide
        have hnc : c ≠ 'n' := by
          rcases hd with hd | rfl
          · exact (digit_facts c hd).2.2.2.2.2.2.1
          · decide
        rw [hr, hrn, parseF]
        rw [show ws0 ++ (c :: cs0) ++ rest = ws0 ++ c :: (cs0 ++ rest) from by simp]
        rw [skipWs_ws_cons ws0 c _ hws hcw]
        simp only [if_neg hlb, if_neg hob, if_neg hq, if_neg htc, if_neg hfc, if_neg hnc]
        rw [show c :: (cs0 ++ rest) = renderInt i ++ rest from by rw [hrn, List.cons_append]]
        rw [parseNum_renderInt i rest hnum]
        rfl
      | str s =>
        have hr : render ind (Json.str s) = '"' :: (escList s.data ++ ['"']) := by
          simp [render, renderStr]
        rw [hr, parseF]
        rw [show ws0 ++ ('"' :: (escList s.data ++ ['"'])) ++ rest =
          ws0 ++ '"' :: (escList s.data ++ '"' :: rest) from by simp]
        rw [skipWs_ws_cons ws0 '"' _ hws (by decide)]
        simp only [show ('"' = '[') = False from by simp, show ('"' = '\x7b') = False from by simp,
          if_neg (by decide : ¬('"' : Char) = '['), if_neg (by decide : ¬('"' : Char) = '\x7b'),
          if_pos rfl]
        rw [parseStrBody_escList]
        rfl
      | arr l =>
        cases l with
        | nil =>
          have hr : render ind (Json.arr []) = '[' :: ']' :: [] := by simp [render]
          rw [hr, parseF]
          rw [show ws0 ++ ['[', ']'] ++ rest = ws0 ++ '[' :: ']' :: rest from by simp]
          rw [skipWs_ws_cons ws0 '[' _ hws (by decide)]
          simp [skipWs, isWsChar]
        | cons x xs =>
          have hsp1 : SpOnly (sp2 ++ ind) := SpOnly_sp2 ind hsp
          obtain ⟨cx, csx, hrx, hwx, hbx, hox⟩ := render_head (sp2 ++ ind) x
          have hr : render ind (Json.arr (x :: xs)) =
              '[' :: '\n' :: (sp2 ++ ind ++ render (sp2 ++ ind) x ++
                renderArrRest (sp2 ++ ind) xs ++ '\n' :: (ind ++ [']'])) := by simp [render]
          have hnum1 : numStop (renderArrRest (sp2 ++ ind) xs ++ '\n' :: (ind ++ ']' :: rest)) := by
            cases xs with
            | nil =>
              show numStop ('\n' :: (ind ++ ']' :: rest))
              exact ⟨by decide, by decide, by decide, by decide⟩
            | cons y ys =>
              show numStop (',' :: _)
              exact ⟨by decide, by decide, by decide, by decide⟩
          have hneedx : need x ≤ F := by
            have h1 := needTailA_pos xs
            simp only [need] at hneed
            omega
          have hneedxs : needTailA xs ≤ F := by
            have h1 := need_pos x
            simp only [need] at hneed
            omega
          have hx := ihv x (sp2 ++ ind) ('\n' :: (sp2 ++ ind))
            (renderArrRest (sp2 ++ ind) xs ++ '\n' :: (ind ++ ']' :: rest))
            hneedx hsp1 (WsOnly_nl _ hsp1) hnum1
          have ha := iha xs ind rest hneedxs hsp
          rw [hr, parseF]
          rw [show ws0 ++ ('[' :: '\n' :: (sp2 ++ ind ++ render (sp2 ++ ind) x ++
              renderArrRest (sp2 ++ ind) xs ++ '\n' :: (ind ++ [']']))) ++ rest =
              ws0 ++ '[' :: ('\n' :: (sp2 ++ ind) ++ (render (sp2 ++ ind) x ++
                (renderArrRest (sp2 ++ ind) xs ++ '\n' :: (ind ++ ']' :: rest)))) from by
            simp [List.append_assoc]]
          rw [skipWs_ws_cons ws0 '[' _ hws (by decide)]
          have hskip : skipWs ('\n' :: (sp2 ++ ind) ++ (render (sp2 ++ ind) x ++
              (renderArrRest (sp2 ++ ind) xs ++ '\n' :: (ind ++ ']' :: rest)))) =
              render (sp2 ++ ind) x ++
                (renderArrRest (sp2 ++ ind) xs ++ '\n' :: (ind ++ ']' :: rest)) := by
            rw [skipWs_append _ _ (WsOnly_nl _ hsp1), hrx, List.cons_append,
              skipWs_cons_not_ws _ _ hwx]
          have hx' : parseF .val F ('\n' :: (sp2 ++ ind) ++ (render (sp2 ++ ind) x ++
              (renderArrRest (sp2 ++ ind) xs ++ '\n' :: (ind ++ ']' :: rest)))) =
              some (.v x, renderArrRest (sp2 ++ ind) xs ++ '\n' :: (ind ++ ']' :: rest)) := by
            rw [← List.append_assoc]
            exact hx
          simp only [if_pos rfl, hskip, hx', ha]
          rw [hrx]
          simp [hbx]
      | obj l =>
        cases l with
        | nil =>
          have hr : render ind (Json.obj []) = '\x7b' :: '\x7d' :: [] := by simp [render]
          rw [hr, parseF]
          rw [show ws0 ++ ['\x7b', '\x7d'] ++ rest = ws0 ++ '\x7b' :: '\x7d' :: rest from by simp]
          rw [skipWs_ws_cons ws0 '\x7b' _ hws (by decide)]
          simp [skipWs, isWsChar]
        | cons m ms =>
          obtain ⟨k, v⟩ := m
          have hsp1 : SpOnly (sp2 ++ ind) := SpOnly_sp2 ind hsp
          have hr : render ind (Json.obj ((k, v) :: ms)) =
              '\x7b' :: '\n' :: (sp2 ++ ind ++ (renderStr k ++ ':' :: ' ' :: render (sp2 ++ ind) v) ++
                renderObjRest (sp2 ++ ind) ms ++ '\n' :: (ind ++ ['\x7d'])) := by
            simp [render, renderMember]
          have hnum1 : numStop (renderObjRest (sp2 ++ ind) ms ++ '\n' :: (ind ++ '\x7d' :: rest)) := by
            cases ms with
            | nil =>
              show numStop ('\n' :: (ind ++ '\x7d' :: rest))
              exact ⟨by decide, by decide, by decide, by decide⟩
            | cons y ys =>
              show numStop (',' :: _)
              exact ⟨by decide, by decide, by decide, by decide⟩
          have hneedv : need v ≤ F := by
            have h1 := needTailO_pos ms
            simp only [need] at hneed
            omega
          have hneedms : needTailO ms ≤ F := by
            have h1 := need_pos v
            simp only [need] at hneed
            omega
          have hx := ihv v (sp2 ++ ind) [' ']
            (renderObjRest (sp2 ++ ind) ms ++ '\n' :: (ind ++ '\x7d' :: rest))
            hneedv hsp1 (by intro c hc; rw [List.mem_singleton.mp hc]; rfl) hnum1
          have ho := iho ms ind rest hneedms hsp
          rw [hr, parseF]
          rw [show ws0 ++ ('\x7b' :: '\n' :: (sp2 ++ ind ++ (renderStr k ++ ':' :: ' ' ::
              render (sp2 ++ ind) v) ++ renderObjRest (sp2 ++ ind) ms ++ '\n' :: (ind ++ ['\x7d']))) ++ rest =
              ws0 ++ '\x7b' :: ('\n' :: (sp2 ++ ind) ++ ('"' :: (escList k.data ++ '"' ::
                (':' :: ' ' :: (render (sp2 ++ ind) v ++ (renderObjRest (sp2 ++ ind) ms ++
                  '\n' :: (ind ++ '\x7d' :: rest))))))) from by
            simp [renderStr, List.append_assoc]]
          rw [skipWs_ws_cons ws0 '\x7b' _ hws (by decide)]
          have hskip : skipWs ('\n' :: (sp2 ++ ind) ++ ('"' :: (escList k.data ++ '"' ::
              (':' :: ' ' :: (render (sp2 ++ ind) v ++ (renderObjRest (sp2 ++ ind) ms ++
                '\n' :: (ind ++ '\x7d' :: rest))))))) =
              '"' :: (escList k.data ++ '"' :: (':' :: ' ' :: (render (sp2 ++ ind) v ++
                (renderObjRest (sp2 ++ ind) ms ++ '\n' :: (ind ++ '\x7d' :: rest))))) := by
            rw [skipWs_append _ _ (WsOnly_nl _ hsp1), skipWs_cons_not_ws _ _ (by decide)]
          have hkc : parseKeyColon ('\n' :: (sp2 ++ ind) ++ ('"' :: (escList k.data ++ '"' ::
              (':' :: ' ' :: (render (sp2 ++ ind) v ++ (renderObjRest (sp2 ++ ind) ms ++
                '\n' :: (ind ++ '\x7d' :: rest))))))) =
              some (k, ' ' :: (render (sp2 ++ ind) v ++ (renderObjRest (sp2 ++ ind) ms ++
                '\n' :: (ind ++ '\x7d' :: rest)))) := by
            rw [parseKeyColon, hskip]
            simp [parseStrBody_escList, skipWs, isWsChar]
          have hx' : parseF .val F (' ' :: (render (sp2 ++ ind) v ++ (renderObjRest (sp2 ++ ind) ms ++
              '\n' :: (ind ++ '\x7d' :: rest)))) =
              some (.v v, renderObjRest (sp2 ++ ind) ms ++ '\n' :: (ind ++ '\x7d' :: rest)) := by
            have := hx
            simpa [List.append_assoc] using this
          simp only [List.cons_append, List.append_assoc] at hskip hkc hx' ho
          simp [hskip, hkc, hx', ho]
    · intro l ind rest hneed hsp
      cases l with
      | nil =>
        have hr : renderArrRest (sp2 ++ ind) ([] : List Json) = [] := by simp [renderArrRest]
        rw [hr, List.nil_append, parseF]
        rw [show ('\n' :: (ind ++ ']' :: rest) : List Char) = ('\n' :: ind) ++ ']' :: rest
          from by simp]
        rw [skipWs_ws_cons ('\n' :: ind) ']' rest (WsOnly_nl ind hsp) (by decide)]
        simp
      | cons y ys =>
        have hsp1 : SpOnly (sp2 ++ ind) := SpOnly_sp2 ind hsp
        have hneedy : need y ≤ F := by
          have h1 := needTailA_pos ys
          simp only [needTailA] at hneed
          omega
        have hneedys : needTailA ys ≤ F := by
          have h1 := need_pos y
          simp only [needTailA] at hneed
          omega
        have hx := ihv y (sp2 ++ ind) ('\n' :: (sp2 ++ ind))
          (renderArrRest (sp2 ++ ind) ys ++ '\n' :: (ind ++ ']' :: rest))
          hneedy hsp1 (WsOnly_nl _ hsp1)
          (numStop_renderArrRest _ ys _)
        have ha := iha ys ind rest hneedys hsp
        rw [show renderArrRest (sp2 ++ ind) (y :: ys) ++ '\n' :: (ind ++ ']' :: rest) =
            ',' :: ('\n' :: (sp2 ++ ind) ++ (render (sp2 ++ ind) y ++
              (renderArrRest (sp2 ++ ind) ys ++ '\n' :: (ind ++ ']' :: rest)))) from by
          simp [renderArrRest, List.append_assoc]]
        rw [parseF]
        rw [skipWs_cons_not_ws ',' _ (by decide)]
        simp only [List.cons_append, List.append_assoc, List.nil_append] at hx ha
        simp [hx, ha]
    · intro ms ind rest hneed hsp
      cases ms with
      | nil =>
        have hr : renderObjRest (sp2 ++ ind) ([] : List (String × Json)) = [] := by
          simp [renderObjRest]
        rw [hr, List.nil_append, parseF]
        rw [show ('\n' :: (ind ++ '\x7d' :: rest) : List Char) = ('\n' :: ind) ++ '\x7d' :: rest
          from by simp]
        rw [skipWs_ws_cons ('\n' :: ind) '\x7d' rest (WsOnly_nl ind hsp) (by decide)]
        simp
      | cons m ms =>
        obtain ⟨k, v⟩ := m
        have hsp1 : SpOnly (sp2 ++ ind) := SpOnly_sp2 ind hsp
        have hneedv : need v ≤ F := by
          have h1 := needTailO_pos ms
          simp only [needTailO] at hneed
          omega
        have hneedms : needTailO ms ≤ F := by
          have h1 := need_pos v
          simp only [needTailO] at hneed
          omega
        have hx := ihv v (sp2 ++ ind) [' ']
          (renderObjRest (sp2 ++ ind) ms ++ '\n' :: (ind ++ '\x7d' :: rest))
          hneedv hsp1 (by intro c hc; rw [List.mem_singleton.mp hc]; rfl)
          (numStop_renderObjRest _ ms _)
        have ho := iho ms ind rest hneedms hsp
        have hkc := parseKeyColon_rendered (sp2 ++ ind) hsp1 k
          (render (sp2 ++ ind) v ++ (renderObjRest (sp2 ++ ind) ms ++
            '\n' :: (ind ++ '\x7d' :: rest)))
        rw [show renderObjRest (sp2 ++ ind) ((k, v) :: ms) ++ '\n' :: (ind ++ '\x7d' :: rest) =
            ',' :: ('\n' :: (sp2 ++ ind) ++ ('"' :: (escList k.data ++ '"' :: ':' :: ' ' ::
              (render (sp2 ++ ind) v ++ (renderObjRest (sp2 ++ ind) ms ++
                '\n' :: (ind ++ '\x7d' :: rest)))))) from by
          simp [renderObjRest, renderMember, renderStr, List.append_assoc]]
        rw [parseF]
        rw [skipWs_cons_not_ws ',' _ (by decide)]
        simp only [List.cons_append, List.append_assoc, List.nil_append] at hx ho hkc
        simp [hx, ho, hkc]

theorem need_le_render (n : Nat) :
    (∀ j : Json, sizeOf j ≤ n → ∀ ind, need j ≤ (render ind j).length + 1) ∧
    (∀ l : List Json, sizeOf l ≤ n →
      ∀ ind1, needTailA l ≤ (renderArrRest ind1 l).length + 1) ∧
    (∀ ms : List (String × Json), sizeOf ms ≤ n →
      ∀ ind1, needTailO ms ≤ (renderObjRest ind1 ms).length + 1) := by
  induction n with
  | zero =>
    refine ⟨?_, ?_, ?_⟩ <;> intro x hx
    · exact absurd hx (by cases x <;> simp)
    · exact absurd hx (by cases x <;> simp)
    · exact absurd hx (by cases x <;> simp)
  | succ n ihn =>
    obtain ⟨ihj, ihl, ihm⟩ := ihn
    refine ⟨?_, ?_, ?_⟩
    · intro j hj ind
      cases j with
      | null => simp [need, render]
      | bool b => cases b <;> simp [need, render]
      | num i => simp [need, render]
      | str s => simp [need, render]
      | arr l =>
        cases l with
        | nil => simp [need, render]
        | cons x xs =>
          have hx : sizeOf x ≤ n := by simp at hj; omega
          have hxs : sizeOf xs ≤ n := by simp at hj; omega
          have h1 := ihj x hx (sp2 ++ ind)
          have h2 := ihl xs hxs (sp2 ++ ind)
          simp [need, render]
          omega
      | obj l =>
        cases l with
        | nil => simp [need, render]
        | cons m ms =>
          obtain ⟨k, v⟩ := m
          have hv : sizeOf v ≤ n := by simp at hj; omega
          have hms : sizeOf ms ≤ n := by simp at hj; omega
          have h1 := ihj v hv (sp2 ++ ind)
          have h2 := ihm ms hms (sp2 ++ ind)
          simp [need, render, renderMember]
          omega
    · intro l hl ind1
      cases l with
      | nil => simp [needTailA, renderArrRest]
      | cons y ys =>
        have hy : sizeOf y ≤ n := by simp at hl; omega
        have hys : sizeOf ys ≤ n := by simp at hl; omega
        have h1 := ihj y hy ind1
        have h2 := ihl ys hys ind1
        simp [needTailA, renderArrRest]
        omega
    · intro ms hms ind1
      cases ms with
      | nil => simp [needTailO, renderObjRest]
      | cons m mss =>
        obtain ⟨k, v⟩ := m
        have hv : sizeOf v ≤ n := by simp at hms; omega
        have hmss : sizeOf mss ≤ n := by simp at hms; omega
        have h1 := ihj v hv ind1
        have h2 := ihm mss hmss ind1
        simp [needTailO, renderObjRest, renderMember]
        omega

/-- Parsing inverts printing: `JSON.parse` recovers exactly the tree that
`JSON.stringify(-, null, 2)` wrote. -/
theorem jsonParse_stringify (j : Json) : jsonParse (jsonStringify j) = some j := by
  have hneed : need j ≤ 4 * (render [] j).length + 16 := by
    have h := (need_le_render (sizeOf j)).1 j le_rfl []
    omega
  have h := (parse_render_master (4 * (render [] j).length + 16)).1 j [] [] [] hneed
    (by intro c hc; simp at hc) (by intro c hc; simp at hc) trivial
  simp only [List.nil_append, List.append_nil] at h
  unfold jsonParse jsonStringify
  rw [show (String.mk (render [] j)).data = render [] j from rfl]
  rw [h]
  rfl

/-! ### C9, step 4: reading every field back -/

theorem decodePairs_encode {α : Type} (dec : Json → Option α) (enc : α → Json)
    (h : ∀ a, dec (enc a) = some a) (m : JsMap α) :
    decodePairs dec (m.map fun p => (p.1, enc p.2)) = some m := by
  induction m with
  | nil => rfl
  | cons p t ih =>
    obtain ⟨k, a⟩ := p
    simp [decodePairs, h, ih]

theorem decodeJsMap_encode {α : Type} (dec : Json → Option α) (enc : α → Json)
    (h : ∀ a, dec (enc a) = some a) (m : JsMap α) :
    decodeJsMap dec (encodeJsMap enc m) = some m := by
  simp [decodeJsMap, encodeJsMap, decodePairs_encode dec enc h m]

theorem decodeElems_encode {α : Type} (dec : Json → Option α) (enc : α → Json)
    (h : ∀ a, dec (enc a) = some a) (l : List α) :
    decodeElems dec (l.map enc) = some l := by
  induction l with
  | nil => rfl
  | cons a t ih => simp [decodeElems, h, ih]

theorem decodeList_encode {α : Type} (dec : Json → Option α) (enc : α → Json)
    (h : ∀ a, dec (enc a) = some a) (l : List α) :
    decodeList dec (.arr (l.map enc)) = some l := by
  simp [decodeList, decodeElems_encode dec enc h l]

theorem decodeFailEntry_encode (e : FailEntry) :
    decodeFailEntry (encodeFailEntry e) = some e := rfl

theorem decodeDownloadEntry_encode (e : DownloadEntry) :
    decodeDownloadEntry (encodeDownloadEntry e) = some e := rfl

theorem decodeTranscribeEntry_encode (e : TranscribeEntry) :
    decodeTranscribeEntry (encodeTranscribeEntry e) = some e := rfl

theorem decodeUploadEntry_encode (e : UploadEntry) :
    decodeUploadEntry (encodeUploadEntry e) = some e := rfl

theorem decodeAnalyzeEntry_encode (e : AnalyzeEntry) :
    decodeAnalyzeEntry (encodeAnalyzeEntry e) = some e := rfl

theorem decodeDateRange_encode (r : DateRange) :
    decodeDateRange (encodeDateRange r) = some r := rfl

theorem decodeArchiveEntry_encode (e : ArchiveEntry) :
    decodeArchiveEntry (encodeArchiveEntry e) = some e := by
  obtain ⟨cid, f1, f2, f3⟩ := e
  cases cid <;> rfl

theorem decodeGetCallIds_encode (g : GetCallIdsStage) :
    decodeGetCallIds (encodeGetCallIds g) = some g := by
  obtain ⟨ranges, total, last⟩ := g
  cases last <;>
    simp [decodeGetCallIds, encodeGetCallIds, Json.getField, jget, asNat, asOptStr,
      decodeList_encode _ _ decodeDateRange_encode]

theorem decodeDownloadStage_encode (d : DownloadStage) :
    decodeDownloadStage (encodeDownloadStage d) = some d := by
  simp [decodeDownloadStage, encodeDownloadStage, Json.getField, jget, asNat,
    decodeJsMap_encode _ _ decodeDownloadEntry_encode,
    decodeJsMap_encode _ _ decodeFailEntry_encode]

theorem decodeTranscribeStage_encode (t : TranscribeStage) :
    decodeTranscribeStage (encodeTranscribeStage t) = some t := by
  simp [decodeTranscribeStage, encodeTranscribeStage, Json.getField, jget, asNat,
    decodeJsMap_encode _ _ decodeTranscribeEntry_encode,
    decodeJsMap_encode _ _ decodeFailEntry_encode]

theorem decodeUploadStage_encode (u : UploadStage) :
    decodeUploadStage (encodeUploadStage u) = some u := by
  simp [decodeUploadStage, encodeUploadStage, Json.getField, jget, asNat,
    decodeJsMap_encode _ _ decodeUploadEntry_encode,
    decodeJsMap_encode _ _ decodeFailEntry_encode]

theorem decodeAnalyzeStage_encode (a : AnalyzeStage) :
    decodeAnalyzeStage (encodeAnalyzeStage a) = some a := by
  simp [decodeAnalyzeStage, encodeAnalyzeStage, Json.getField, jget, asNat,
    decodeJsMap_encode _ _ decodeAnalyzeEntry_encode,
    decodeJsMap_encode _ _ decodeFailEntry_encode]

theorem decodeStagesObj_encode (st : Stages) :
    decodeStagesObj (encodeStagesObj st) = some st := by
  simp [decodeStagesObj, encodeStagesObj, Json.getField, jget,
    decodeGetCallIds_encode, decodeDownloadStage_encode, decodeTranscribeStage_encode,
    decodeUploadStage_encode, decodeAnalyzeStage_encode]

theorem decodeArchivedFiles_encode (af : ArchivedFiles) :
    decodeArchivedFiles (encodeArchivedFiles af) = some af := by
  simp [decodeArchivedFiles, encodeArchivedFiles, Json.getField, jget,
    decodeList_encode _ _ decodeArchiveEntry_encode]

theorem decodeStateDoc_encode (d : StateDoc) :
    decodeStateDoc (encodeStateDoc d) = some d := by
  simp [decodeStateDoc, encodeStateDoc, Json.getField, jget, asStr,
    decodeStagesObj_encode, decodeArchivedFiles_encode]

/-! ### C9: the persistence round trip -/

/-- C9: writing the document with `saveState` (`JSON.stringify` of the
in-memory tree) and loading it back with `loadState` (`JSON.parse` of the
file) reproduces the saved document exactly — the parsed tree is the
written tree, and every field read back from it equals the corresponding
field of the saved document. -/
theorem state_roundtrip (d : StateDoc) (now readNow : String) :
    loadStateJson (some (jsonStringify (encodeStateDoc (saveState d now)))) readNow =
      encodeStateDoc (saveState d now) ∧
    decodeStateDoc (encodeStateDoc (saveState d now)) = some (saveState d now) :=
  ⟨by simp [loadStateJson, jsonParse_stringify], decodeStateDoc_encode _⟩

end Ana
